import Mathlib

/-!
Verification of the Slot Reservation Core of Schedlyx against the SQL RPC
functions in `supabase/migrations/20240105000000_fix_rpc_integrity.sql`.

The database state is embedded shallowly: each table is a list of rows,
timestamps are integers (measured in minutes), and each PL/pgSQL function
becomes a Lean function from a state (and the current time `now`) to a
result together with the committed state.  A `RAISE EXCEPTION` aborts the
surrounding transaction, so every error branch returns the state unchanged.

Two helper routines of the repository (`release_expired_locks` and
`release_slot_lock`) and the table definitions live in a portion of the
initial migration that is not part of the sources; those are modelled from
the specification and are marked as such in their doc comments.
-/

namespace Schedlyx

/-- A row of `public.events` (only the columns the reservation core reads). -/
structure Event where
  id : Nat
  status : String
  visibility : String
deriving DecidableEq, Repr

/-- A row of `public.time_slots` (the columns the reservation core reads and
writes).  `booked_count` is stored; `available_count` is the derived column. -/
structure TimeSlot where
  id : Nat
  event_id : Nat
  start_time : Int
  end_time : Int
  total_capacity : Int
  booked_count : Int
  status : String
  price : Int
deriving DecidableEq, Repr

/-- Modelled from the spec: the table definition is outside the sources and
the spec fixes the derived column as
`available_count = total_capacity - booked_count` (stored or computed; the
RPC code updates only `booked_count` and reads `available_count`). -/
def TimeSlot.available_count (s : TimeSlot) : Int :=
  s.total_capacity - s.booked_count

/-- A row of `public.slot_locks` (a hold).  Modelled from the spec for the
missing table definition: `session_id` is declared required (NOT NULL), so a
committed hold always carries a session string; the RPC parameter
`p_session_id` itself remains optional. -/
structure Hold where
  id : Nat
  slot_id : Nat
  user_id : Option Nat
  session_id : String
  quantity : Int
  expires_at : Int
  is_active : Bool
  released_at : Option Int
deriving DecidableEq, Repr

/-- A row of `public.bookings` (the columns `complete_slot_booking` writes). -/
structure Booking where
  id : Nat
  event_id : Nat
  slot_id : Nat
  user_id : Option Nat
  first_name : String
  last_name : String
  email : String
  phone : Option String
  notes : Option String
  start_time : Int
  timezone : String
  status : String
  booking_reference : String
  confirmed_at : Int
deriving DecidableEq, Repr

/-- A row of `public.booking_attempts`. -/
structure BookingAttempt where
  event_id : Nat
  slot_id : Nat
  user_id : Option Nat
  email : String
  status : String
  attempted_at : Int
deriving DecidableEq, Repr

/-- The database state seen by the reservation core.  `next_id` supplies the
fresh identifiers that the real database draws from `uuid_generate_v4()`. -/
structure DB where
  events : List Event
  slots : List TimeSlot
  holds : List Hold
  bookings : List Booking
  attempts : List BookingAttempt
  next_id : Nat
deriving DecidableEq, Repr

/-- The distinct `RAISE EXCEPTION` sites of the RPC functions, plus the two
failure modes of the embedding (`nullSessionInsert` models the NOT NULL
violation raised when `create_slot_lock` inserts a hold without a session;
`referenceSupplyExhausted` models running off the end of the finite list
standing in for the unbounded stream of random reference candidates). -/
inductive RpcError where
  /-- `Quantity must be greater than 0` -/
  | quantityNotPositive
  /-- `Slot not found` -/
  | slotNotFound
  /-- `Slot is not available for booking` -/
  | slotNotAvailable
  /-- `Cannot book slots in the past` -/
  | slotInPast
  /-- `Insufficient slots available. Only % slot(s) remaining.` -/
  | insufficientSlots (remaining : Int)
  /-- `Lock not found or expired. Please select a new slot.` -/
  | lockNotFoundOrExpired
  /-- `Insufficient capacity available. Slot may have been booked by another user.` -/
  | insufficientCapacity
  /-- A valid hold whose slot row is absent (prevented by the foreign key). -/
  | slotRowMissing
  /-- NOT NULL violation on `slot_locks.session_id`. -/
  | nullSessionInsert
  /-- The finite supply of reference candidates ran out. -/
  | referenceSupplyExhausted
deriving DecidableEq, Repr

/-- The `WHERE` clause shared by the availability subqueries: the hold is on
the given slot, active, and not yet expired. -/
def Hold.countsAt (h : Hold) (sid : Nat) (now : Int) : Bool :=
  h.slot_id == sid && h.is_active && decide (now < h.expires_at)

/-- `SUM(sl.quantity)` over active unexpired holds on a slot, excluding the
holds of the session `sess` when one is given — the subquery of
`get_available_slots` and `create_slot_lock`:
`(p_session_id IS NULL OR sl.session_id != p_session_id)`. -/
def sumOtherSessions (holds : List Hold) (sid : Nat) (sess : Option String)
    (now : Int) : Int :=
  ((holds.filter (fun h =>
    h.countsAt sid now &&
      match sess with
      | none => true
      | some s => h.session_id != s)).map (fun h => h.quantity)).sum

/-- `SUM(sl.quantity)` over active unexpired holds on a slot other than one
given hold — the residual subquery of `complete_slot_booking`. -/
def sumExceptHold (holds : List Hold) (sid : Nat) (lock_id : Nat)
    (now : Int) : Int :=
  ((holds.filter (fun h =>
    h.countsAt sid now && h.id != lock_id)).map (fun h => h.quantity)).sum

/-- `SUM(sl.quantity)` over all active unexpired holds on a slot — the
session-agnostic subquery of `can_book_event`. -/
def sumAllHolds (holds : List Hold) (sid : Nat) (now : Int) : Int :=
  ((holds.filter (fun h => h.countsAt sid now)).map (fun h => h.quantity)).sum

/-- The row update of the expiry sweep:
`SET is_active = false, released_at = NOW() WHERE is_active AND expires_at <= NOW()`. -/
def expireRelease (now : Int) (h : Hold) : Hold :=
  if h.is_active && decide (h.expires_at ≤ now) then
    { h with is_active := false, released_at := some now }
  else h

/-- The row update of `release_slot_lock`:
`SET is_active = false, released_at = NOW() WHERE id = p_lock_id AND is_active`. -/
def lockRelease (lock_id : Nat) (now : Int) (h : Hold) : Hold :=
  if h.id == lock_id && h.is_active then
    { h with is_active := false, released_at := some now }
  else h

/-- The row update of the expired branch of `verify_lock`:
`SET is_active = false, released_at = NOW() WHERE id = p_lock_id`. -/
def idRelease (lock_id : Nat) (now : Int) (h : Hold) : Hold :=
  if h.id == lock_id then
    { h with is_active := false, released_at := some now }
  else h

/-- The row update of `create_slot_lock` releasing the callers prior holds:
`SET is_active = false, released_at = NOW()
 WHERE slot_id = p_slot_id AND session_id = p_session_id AND is_active`. -/
def sessionRelease (slot_id : Nat) (sess : String) (now : Int) (h : Hold) : Hold :=
  if h.slot_id == slot_id && h.session_id == sess && h.is_active then
    { h with is_active := false, released_at := some now }
  else h

/-- Modelled from the spec: `release_expired_locks()` (defined in a portion
of the initial migration outside the sources) deactivates every hold with
`is_active AND expires_at <= now()`, setting `released_at := now()`. -/
def release_expired_locks (db : DB) (now : Int) : DB :=
  { db with holds := db.holds.map (expireRelease now) }

/-- Modelled from the spec: `release_slot_lock(p_lock_id)` (defined outside
the sources) sets `is_active := false, released_at := now()` iff the hold is
currently active, returning whether the transition was applied. -/
def release_slot_lock (db : DB) (lock_id : Nat) (now : Int) : Bool × DB :=
  match db.holds.find? (fun h => h.id == lock_id) with
  | none => (false, db)
  | some h =>
    if h.is_active then
      (true, { db with holds := db.holds.map (lockRelease lock_id now) })
    else
      (false, db)

/-- `verify_lock(p_lock_id)`: result row `(is_valid, reason, expires_at)`
paired with the committed state (the expired branch auto-releases the hold). -/
def verify_lock (db : DB) (lock_id : Nat) (now : Int) :
    (Bool × Option String × Option Int) × DB :=
  match db.holds.find? (fun h => h.id == lock_id) with
  | none => ((false, some "Lock not found", none), db)
  | some h =>
    if ¬ h.is_active then
      ((false, some "Lock has been released", some h.expires_at), db)
    else if h.expires_at ≤ now then
      ((false, some "Lock has expired", some h.expires_at),
        { db with holds := db.holds.map (idRelease lock_id now) })
    else
      ((true, some "Lock is valid", some h.expires_at), db)

/-- One output row of `get_available_slots`.  The column aliased
`available_count` in the SQL carries the effective availability. -/
structure AvailRow where
  slot_id : Nat
  start_time : Int
  end_time : Int
  total_capacity : Int
  available_count : Int
  price : Int
deriving DecidableEq, Repr

/-- The `ORDER BY ts.start_time` of `get_available_slots`. -/
def sortByStart (rows : List AvailRow) : List AvailRow :=
  rows.insertionSort (fun a b => a.start_time ≤ b.start_time)

/-- `get_available_slots(p_event_id, p_session_id)`: runs the opportunistic
sweep, then returns, ordered by start time, one row per slot of the event
with `status = 'available' AND start_time > NOW() AND available_count > 0`,
whose reported availability deducts the active unexpired holds of every
session other than the callers. -/
def get_available_slots (db : DB) (event_id : Nat) (sess : Option String)
    (now : Int) : List AvailRow × DB :=
  let db1 := release_expired_locks db now
  (sortByStart ((db1.slots.filter (fun ts =>
      ts.event_id == event_id && ts.status == "available" &&
        decide (now < ts.start_time) && decide (0 < ts.available_count))).map
    (fun ts =>
      { slot_id := ts.id
        start_time := ts.start_time
        end_time := ts.end_time
        total_capacity := ts.total_capacity
        available_count :=
          ts.available_count - sumOtherSessions db1.holds ts.id sess now
        price := ts.price })), db1)

/-- The hold row inserted by `create_slot_lock`. -/
def newLockRow (db : DB) (slot_id : Nat) (user_id : Option Nat)
    (sess : String) (quantity duration now : Int) : Hold :=
  { id := db.next_id
    slot_id := slot_id
    user_id := user_id
    session_id := sess
    quantity := quantity
    expires_at := now + duration
    is_active := true
    released_at := none }

/-- `create_slot_lock(p_slot_id, p_user_id, p_session_id, p_quantity,
p_lock_duration_minutes)`: validates quantity, slot existence, slot status
and start time, then the effective availability (excluding the callers own
session), deactivates any active hold of the same session on the slot, and
inserts the new hold with `expires_at = now() + duration`.  An error leaves
the state unchanged (the exception aborts the transaction). -/
def create_slot_lock (db : DB) (slot_id : Nat) (user_id : Option Nat)
    (sess : Option String) (quantity : Int) (duration : Int) (now : Int) :
    Except RpcError Nat × DB :=
  if quantity ≤ 0 then (.error .quantityNotPositive, db)
  else
    match db.slots.find? (fun ts => ts.id == slot_id) with
    | none => (.error .slotNotFound, db)
    | some slot =>
      if slot.status ≠ "available" then (.error .slotNotAvailable, db)
      else if slot.start_time ≤ now then (.error .slotInPast, db)
      else
        let avail := slot.available_count - sumOtherSessions db.holds slot_id sess now
        if avail < quantity then (.error (.insufficientSlots avail), db)
        else
          match sess with
          | none =>
            -- The INSERT would write a NULL `session_id`; the NOT NULL
            -- constraint raises and the whole transaction rolls back.
            (.error .nullSessionInsert, db)
          | some s =>
            let holds1 := db.holds.map (sessionRelease slot_id s now)
            let newHold : Hold := newLockRow db slot_id user_id s quantity duration now
            (.ok db.next_id,
              { db with holds := holds1 ++ [newHold], next_id := db.next_id + 1 })

/-- `upper(substr(md5(random()::text), 1, 8))`: the reference derived from
one hex digest. -/
def toReference (digest : String) : String :=
  ⟨(digest.data.take 8).map Char.toUpper⟩

/-- The reference-generation loop of `complete_slot_booking`: take the first
candidate digest whose derived reference is not already used by a booking.
The unbounded stream of `md5(random()::text)` draws is modelled by the
finite list `digests`. -/
def freshReference (bookings : List Booking) (digests : List String) :
    Option String :=
  match digests with
  | [] => none
  | d :: rest =>
    let r := toReference d
    if bookings.any (fun b => b.booking_reference == r) then
      freshReference bookings rest
    else
      some r

/-- The booking row inserted by `complete_slot_booking` (`date`, `time` and
`timezone` are projected from the slot; the row is created `confirmed`). -/
def newBookingRow (db : DB) (slot : TimeSlot) (lock : Hold)
    (first_name last_name email : String) (phone notes : Option String)
    (reference : String) (now : Int) : Booking :=
  { id := db.next_id
    event_id := slot.event_id
    slot_id := lock.slot_id
    user_id := lock.user_id
    first_name := first_name
    last_name := last_name
    email := email
    phone := phone
    notes := notes
    start_time := slot.start_time
    timezone := "UTC"
    status := "confirmed"
    booking_reference := reference
    confirmed_at := now }

/-- The two slot updates of `complete_slot_booking`: increment
`booked_count` by the consumed quantity, then set `status = 'full'` on the
slot if its `available_count` reached 0. -/
def bookSlots (slots : List TimeSlot) (sid : Nat) (q : Int) : List TimeSlot :=
  (slots.map (fun ts =>
    if ts.id == sid then { ts with booked_count := ts.booked_count + q }
    else ts)).map (fun ts =>
      if ts.id == sid && ts.available_count == 0 then { ts with status := "full" }
      else ts)

/-- The success row appended to `public.booking_attempts`. -/
def successAttemptRow (slot : TimeSlot) (lock : Hold) (email : String)
    (now : Int) : BookingAttempt :=
  { event_id := slot.event_id
    slot_id := lock.slot_id
    user_id := lock.user_id
    email := email
    status := "success"
    attempted_at := now }

/-- `complete_slot_booking(p_lock_id, p_first_name, p_last_name, p_email,
p_phone, p_notes)`: validates the hold (`is_active AND expires_at > NOW()`),
re-checks the residual capacity excluding the consumed hold, generates a
unique booking reference, inserts the booking, increments `booked_count`,
marks the slot `full` when `available_count` reaches 0, releases the hold,
and logs a success attempt.  An error leaves the state unchanged. -/
def complete_slot_booking (db : DB) (lock_id : Nat) (first_name : String)
    (last_name : String) (email : String) (phone : Option String)
    (notes : Option String) (digests : List String) (now : Int) :
    Except RpcError Nat × DB :=
  match db.holds.find? (fun h =>
      h.id == lock_id && h.is_active && decide (now < h.expires_at)) with
  | none => (.error .lockNotFoundOrExpired, db)
  | some lock =>
    match db.slots.find? (fun ts => ts.id == lock.slot_id) with
    | none => (.error .slotRowMissing, db)
    | some slot =>
      if slot.available_count - sumExceptHold db.holds lock.slot_id lock_id now
          < lock.quantity then
        (.error .insufficientCapacity, db)
      else
        match freshReference db.bookings digests with
        | none => (.error .referenceSupplyExhausted, db)
        | some reference =>
          let booking : Booking :=
            newBookingRow db slot lock first_name last_name email phone notes reference now
          let db1 : DB :=
            { db with
                bookings := db.bookings ++ [booking]
                slots := bookSlots db.slots lock.slot_id lock.quantity
                next_id := db.next_id + 1 }
          let db2 := (release_slot_lock db1 lock_id now).2
          (.ok booking.id,
            { db2 with attempts := db2.attempts ++ [successAttemptRow slot lock email now] })

/-- The slot count of `can_book_event`: slots of the event that are
available, in the future, and whose session-agnostic effective availability
covers the requested quantity. -/
def countBookableSlots (db : DB) (event_id : Nat) (quantity : Int)
    (now : Int) : Int :=
  ((db.slots.filter (fun ts =>
    ts.event_id == event_id && ts.status == "available" &&
      decide (now < ts.start_time) &&
      decide (quantity ≤ ts.available_count - sumAllHolds db.holds ts.id now))).length : Int)

/-- `can_book_event(p_event_id, p_quantity)`: a read-only pre-flight check
returning `(can_book, reason, available_slots)`. -/
def can_book_event (db : DB) (event_id : Nat) (quantity : Int) (now : Int) :
    Bool × Option String × Int :=
  match db.events.find? (fun e => e.id == event_id) with
  | none => (false, some "Event not found", 0)
  | some ev =>
    if ev.status ≠ "active" then (false, some "Event is not active", 0)
    else if ev.visibility ≠ "public" ∧ ev.visibility ≠ "unlisted" then
      (false, some "Event is not publicly available", 0)
    else
      let count := countBookableSlots db event_id quantity now
      if count = 0 then (false, some "No available slots", 0)
      else (true, some "Event is available for booking", count)

/-- The externally callable operations that can change the database.
`can_book_event` is read-only and therefore not a step.  The state effect of
`get_available_slots` is its opportunistic sweep. -/
inductive Op where
  | list (event_id : Nat) (sess : Option String)
  | create (slot_id : Nat) (user_id : Option Nat) (sess : Option String)
      (quantity : Int) (duration : Int)
  | confirm (lock_id : Nat) (first_name last_name email : String)
      (phone notes : Option String) (digests : List String)
  | verify (lock_id : Nat)
  | release (lock_id : Nat)
  | sweep

/-- The committed state after one operation runs at time `now` (a raised
exception rolls the transaction back, so error results leave the state as
it was). -/
def applyOp (db : DB) (op : Op) (now : Int) : DB :=
  match op with
  | .list e s => (get_available_slots db e s now).2
  | .create sid u s q d => (create_slot_lock db sid u s q d now).2
  | .confirm l fn ln em ph no dg => (complete_slot_booking db l fn ln em ph no dg now).2
  | .verify l => (verify_lock db l now).2
  | .release l => (release_slot_lock db l now).2
  | .sweep => release_expired_locks db now

/-- Admissible initial states: no holds, bookings or attempts yet, primary
keys of slots distinct, and every slot within capacity and with a status
consistent with its `available_count`. -/
def goodInit (db : DB) : Prop :=
  db.holds = [] ∧ db.bookings = [] ∧ db.attempts = [] ∧
  (db.slots.map (fun s => s.id)).Nodup ∧
  ∀ s ∈ db.slots,
    s.booked_count ≤ s.total_capacity ∧ (s.status = "full" ↔ s.available_count = 0)

/-- A committed state reachable from an admissible initial state by the
exposed operations, with time moving forward between operations. -/
inductive Reachable : DB → Int → Prop where
  | init (db : DB) (t : Int) : goodInit db → Reachable db t
  | step (db : DB) (t : Int) (op : Op) (t' : Int) :
      Reachable db t → t ≤ t' → Reachable (applyOp db op t') t'

/-- The number of active holds for one `(slot_id, session_id)` pair. -/
def countActivePair (holds : List Hold) (sid : Nat) (sess : String) : Nat :=
  (holds.filter (fun h =>
    h.slot_id == sid && h.session_id == sess && h.is_active)).length

/-- The inductive invariant of the reservation core at time `t`. -/
structure Inv (db : DB) (t : Int) : Prop where
  qty_pos : ∀ h ∈ db.holds, 0 < h.quantity
  slots_nodup : (db.slots.map (fun s => s.id)).Nodup
  holds_nodup : (db.holds.map (fun h => h.id)).Nodup
  holds_lt : ∀ h ∈ db.holds, h.id < db.next_id
  cap : ∀ s ∈ db.slots, s.booked_count + sumAllHolds db.holds s.id t ≤ s.total_capacity
  uniq : ∀ sid sess, countActivePair db.holds sid sess ≤ 1
  status_full : ∀ s ∈ db.slots, s.status = "full" ↔ s.available_count = 0

/-- A hold-to-hold map that at most deactivates: it never changes the key
columns and never re-activates a hold. -/
def Deactivating (f : Hold → Hold) : Prop :=
  ∀ h, (f h).id = h.id ∧ (f h).slot_id = h.slot_id ∧
    (f h).session_id = h.session_id ∧ (f h).quantity = h.quantity ∧
    (f h).expires_at = h.expires_at ∧
    ((f h).is_active = true → h.is_active = true)

theorem deactivating_expireRelease (now : Int) : Deactivating (expireRelease now) := by
  intro h
  unfold expireRelease
  split <;> simp

theorem deactivating_lockRelease (lock_id : Nat) (now : Int) :
    Deactivating (lockRelease lock_id now) := by
  intro h
  unfold lockRelease
  split <;> simp

theorem deactivating_idRelease (lock_id : Nat) (now : Int) :
    Deactivating (idRelease lock_id now) := by
  intro h
  unfold idRelease
  split <;> simp

theorem deactivating_sessionRelease (sid : Nat) (sess : String) (now : Int) :
    Deactivating (sessionRelease sid sess now) := by
  intro h
  unfold sessionRelease
  split <;> simp

theorem length_filter_mono (l : List Hold) (p q : Hold → Bool)
    (himp : ∀ x, p x = true → q x = true) :
    (l.filter p).length ≤ (l.filter q).length := by
  induction l with
  | nil => simp
  | cons h tl ih =>
    by_cases hp : p h = true
    · simp [List.filter_cons, hp, himp h hp]
      omega
    · rcases hq : q h with _ | _ <;>
        simp [List.filter_cons, hp, hq] <;> omega

theorem sum_filter_nonneg (l : List Hold) (p : Hold → Bool)
    (hq : ∀ x ∈ l, 0 ≤ x.quantity) :
    0 ≤ ((l.filter p).map (fun h => h.quantity)).sum := by
  refine List.sum_nonneg ?_
  intro x hx
  rcases List.mem_map.mp hx with ⟨h, hmem, rfl⟩
  exact hq h (List.mem_of_mem_filter hmem)

theorem sum_filter_mono (l : List Hold) (p q : Hold → Bool)
    (himp : ∀ x, p x = true → q x = true)
    (hq : ∀ x ∈ l, 0 ≤ x.quantity) :
    ((l.filter p).map (fun h => h.quantity)).sum ≤
      ((l.filter q).map (fun h => h.quantity)).sum := by
  induction l with
  | nil => simp
  | cons h tl ih =>
    have hq0 : 0 ≤ h.quantity := hq h (by simp)
    have hqtl : ∀ x ∈ tl, 0 ≤ x.quantity := fun x hx => hq x (by simp [hx])
    by_cases hp : p h = true
    · simp [List.filter_cons, hp, himp h hp]
      exact ih hqtl
    · rcases hqh : q h with _ | _
      · simp [List.filter_cons, hp, hqh]
        exact ih hqtl
      · simp [List.filter_cons, hp, hqh]
        have := ih hqtl
        linarith

theorem sum_filter_of_map (l : List Hold) (f : Hold → Hold) (p : Hold → Bool)
    (hq : ∀ h, (f h).quantity = h.quantity) :
    (((l.map f).filter p).map (fun h => h.quantity)).sum =
      ((l.filter (fun h => p (f h))).map (fun h => h.quantity)).sum := by
  induction l with
  | nil => simp
  | cons h tl ih =>
    by_cases hp : p (f h) = true <;>
      simp [List.filter_cons, hp, ih, hq h]

theorem sumAll_map_le (l : List Hold) (f : Hold → Hold) (hf : Deactivating f)
    (hq : ∀ x ∈ l, 0 ≤ x.quantity) (sid : Nat) (t : Int) :
    sumAllHolds (l.map f) sid t ≤ sumAllHolds l sid t := by
  unfold sumAllHolds
  rw [sum_filter_of_map l f _ (fun h => (hf h).2.2.2.1)]
  refine sum_filter_mono l _ _ ?_ hq
  intro x hx
  rcases hf x with ⟨_, hslot, _, _, hexp, hact⟩
  unfold Hold.countsAt at hx ⊢
  rw [hslot, hexp] at hx
  simp only [Bool.and_eq_true] at hx ⊢
  exact ⟨⟨hx.1.1, hact hx.1.2⟩, hx.2⟩

theorem sumAll_mono_time (l : List Hold) (sid : Nat) {t t' : Int} (ht : t ≤ t')
    (hq : ∀ x ∈ l, 0 ≤ x.quantity) :
    sumAllHolds l sid t' ≤ sumAllHolds l sid t := by
  unfold sumAllHolds
  refine sum_filter_mono l _ _ ?_ hq
  intro x hx
  unfold Hold.countsAt at hx ⊢
  simp only [Bool.and_eq_true, decide_eq_true_eq] at hx ⊢
  exact ⟨hx.1, by omega⟩

theorem sumAll_append_single (l : List Hold) (h : Hold) (sid : Nat) (t : Int) :
    sumAllHolds (l ++ [h]) sid t =
      sumAllHolds l sid t + (if h.countsAt sid t then h.quantity else 0) := by
  unfold sumAllHolds
  rw [List.filter_append, List.map_append, List.sum_append]
  by_cases hc : h.countsAt sid t = true <;> simp [hc]

theorem sumAll_sessionRelease (l : List Hold) (sid : Nat) (sess : String)
    (now : Int) (t : Int) :
    sumAllHolds (l.map (sessionRelease sid sess now)) sid t =
      sumOtherSessions l sid (some sess) t := by
  unfold sumAllHolds sumOtherSessions
  rw [sum_filter_of_map l _ _ (fun h => (deactivating_sessionRelease sid sess now h).2.2.2.1)]
  refine congrArg _ ?_
  refine congrArg _ ?_
  refine List.filter_congr ?_
  intro h _
  unfold sessionRelease Hold.countsAt
  by_cases h1 : h.slot_id = sid <;> by_cases h2 : h.session_id = sess <;>
    by_cases h3 : h.is_active = true <;>
    simp [h1, h2, h3, bne_iff_ne]

theorem sumAll_lockRelease (l : List Hold) (sid : Nat) (lock_id : Nat)
    (now : Int) (t : Int) :
    sumAllHolds (l.map (lockRelease lock_id now)) sid t =
      sumExceptHold l sid lock_id t := by
  unfold sumAllHolds sumExceptHold
  rw [sum_filter_of_map l _ _ (fun h => (deactivating_lockRelease lock_id now h).2.2.2.1)]
  refine congrArg _ ?_
  refine congrArg _ ?_
  refine List.filter_congr ?_
  intro h _
  unfold lockRelease Hold.countsAt
  by_cases h1 : h.id = lock_id <;> by_cases h2 : h.is_active = true <;>
    simp [h1, h2, bne_iff_ne]

theorem countActivePair_map_le (l : List Hold) (f : Hold → Hold)
    (hf : Deactivating f) (sid : Nat) (sess : String) :
    countActivePair (l.map f) sid sess ≤ countActivePair l sid sess := by
  unfold countActivePair
  rw [List.filter_map]
  rw [List.length_map]
  refine length_filter_mono l _ _ ?_
  intro x hx
  rcases hf x with ⟨_, hslot, hsess, _, _, hact⟩
  simp only [Function.comp, hslot, hsess, Bool.and_eq_true] at hx ⊢
  exact ⟨⟨hx.1.1, hx.1.2⟩, hact hx.2⟩

theorem countActivePair_append_single (l : List Hold) (h : Hold) (sid : Nat)
    (sess : String) :
    countActivePair (l ++ [h]) sid sess = countActivePair l sid sess +
      (if h.slot_id == sid && h.session_id == sess && h.is_active then 1 else 0) := by
  unfold countActivePair
  rw [List.filter_append, List.length_append]
  by_cases hc : (h.slot_id == sid && h.session_id == sess && h.is_active) = true <;>
    simp [hc]

theorem countActivePair_sessionRelease (l : List Hold) (sid : Nat)
    (sess : String) (now : Int) :
    countActivePair (l.map (sessionRelease sid sess now)) sid sess = 0 := by
  unfold countActivePair
  rw [List.filter_map]
  rw [List.length_map, List.length_eq_zero]
  refine List.filter_eq_nil_iff.mpr ?_
  intro h _
  simp only [Function.comp]
  unfold sessionRelease
  by_cases h1 : h.slot_id = sid <;> by_cases h2 : h.session_id = sess <;>
    by_cases h3 : h.is_active = true <;> simp [h1, h2, h3]

theorem map_id_of_deactivating (l : List Hold) (f : Hold → Hold)
    (hf : Deactivating f) :
    (l.map f).map (fun h => h.id) = l.map (fun h => h.id) := by
  rw [List.map_map]
  refine List.map_congr_left ?_
  intro h _
  exact (hf h).1

theorem qty_nonneg_of_inv {db : DB} {t : Int} (hi : Inv db t) :
    ∀ x ∈ db.holds, 0 ≤ x.quantity :=
  fun x hx => le_of_lt (hi.qty_pos x hx)

/-- The invariant is stable under the passage of time: holds only expire. -/
theorem inv_lift {db : DB} {t t' : Int} (hi : Inv db t) (ht : t ≤ t') :
    Inv db t' := by
  refine ⟨hi.qty_pos, hi.slots_nodup, hi.holds_nodup, hi.holds_lt, ?_, hi.uniq,
    hi.status_full⟩
  intro s hs
  have := sumAll_mono_time db.holds s.id ht (qty_nonneg_of_inv hi)
  have := hi.cap s hs
  linarith

/-- The invariant is stable under any update that at most deactivates holds. -/
theorem inv_holdsMap {db : DB} {t : Int} (f : Hold → Hold)
    (hf : Deactivating f) (hi : Inv db t) :
    Inv { db with holds := db.holds.map f } t := by
  refine ⟨?_, hi.slots_nodup, ?_, ?_, ?_, ?_, hi.status_full⟩
  · intro h hmem
    rcases List.mem_map.mp hmem with ⟨g, hg, rfl⟩
    rw [(hf g).2.2.2.1]
    exact hi.qty_pos g hg
  · rw [map_id_of_deactivating db.holds f hf]
    exact hi.holds_nodup
  · intro h hmem
    rcases List.mem_map.mp hmem with ⟨g, hg, rfl⟩
    rw [(hf g).1]
    exact hi.holds_lt g hg
  · intro s hs
    have := sumAll_map_le db.holds f hf (qty_nonneg_of_inv hi) s.id t
    have := hi.cap s hs
    linarith
  · intro sid sess
    exact le_trans (countActivePair_map_le db.holds f hf sid sess) (hi.uniq sid sess)

theorem inv_sweep {db : DB} {t : Int} (hi : Inv db t) :
    Inv (release_expired_locks db t) t :=
  inv_holdsMap (expireRelease t) (deactivating_expireRelease t) hi

/-- The state component of `get_available_slots` is exactly the sweep. -/
theorem get_available_slots_state (db : DB) (e : Nat) (sess : Option String)
    (now : Int) :
    (get_available_slots db e sess now).2 = release_expired_locks db now := rfl

theorem inv_verify {db : DB} {t : Int} (l : Nat) (hi : Inv db t) :
    Inv (verify_lock db l t).2 t := by
  unfold verify_lock
  rcases hfind : db.holds.find? (fun h => h.id == l) with _ | h <;>
    simp only [hfind]
  · exact hi
  · by_cases h1 : h.is_active = true
    · by_cases h2 : h.expires_at ≤ t
      · simpa [h1, h2] using
          inv_holdsMap (idRelease l t) (deactivating_idRelease l t) hi
      · simpa [h1, h2] using hi
    · simpa [h1] using hi

theorem inv_release {db : DB} {t : Int} (l : Nat) (hi : Inv db t) :
    Inv (release_slot_lock db l t).2 t := by
  unfold release_slot_lock
  rcases hfind : db.holds.find? (fun h => h.id == l) with _ | h <;>
    simp only [hfind]
  · exact hi
  · by_cases h1 : h.is_active = true
    · simpa [h1] using
        inv_holdsMap (lockRelease l t) (deactivating_lockRelease l t) hi
    · simpa [h1] using hi

/-- Without a session, `create_slot_lock` never commits anything: every
check failure raises, and the final insert violates the NOT NULL constraint
and rolls back. -/
theorem create_none_state (db : DB) (P : Nat) (u : Option Nat) (q d t : Int) :
    (create_slot_lock db P u none q d t).2 = db := by
  unfold create_slot_lock
  repeat' split
  all_goals first
    | rfl
    | (dsimp only; split <;> rfl)
    | simp_all

theorem inv_create {db : DB} {t : Int} (P : Nat) (u : Option Nat)
    (sess : Option String) (q d : Int) (hi : Inv db t) :
    Inv (create_slot_lock db P u sess q d t).2 t := by
  rcases sess with _ | s
  · rw [create_none_state]
    exact hi
  unfold create_slot_lock
  by_cases h0 : q ≤ 0
  · simpa [h0] using hi
  rcases hfind : db.slots.find? (fun ts => ts.id == P) with _ | slot
  · simpa [h0, hfind] using hi
  by_cases h1 : slot.status = "available"
  swap
  · simpa [h0, hfind, h1] using hi
  by_cases h2 : slot.start_time ≤ t
  · simpa [h0, hfind, h1, h2] using hi
  by_cases h3 : slot.available_count - sumOtherSessions db.holds P (some s) t < q
  · simpa [h0, hfind, h1, h2, h3] using hi
  simp only [h0, hfind, h1, h2, h3, if_false, if_true, ite_false, ite_true,
    not_false_eq_true, not_true_eq_false, ne_eq, ite_not]
  have hq : 0 < q := by omega
  have hslotP : slot.id = P := by
    have := List.find?_some hfind
    simpa using this
  have hslotmem : slot ∈ db.slots := List.mem_of_find?_eq_some hfind
  refine ⟨?_, hi.slots_nodup, ?_, ?_, ?_, ?_, hi.status_full⟩
  · -- quantities stay positive
    intro h hmem
    rcases List.mem_append.mp hmem with hl | hr
    · rcases List.mem_map.mp hl with ⟨g, hg, rfl⟩
      rw [(deactivating_sessionRelease P s t g).2.2.2.1]
      exact hi.qty_pos g hg
    · have hhr : h = newLockRow db P u s q d t := by simpa using hr
      rw [hhr]
      exact hq
  · -- hold ids stay distinct
    rw [List.map_append, map_id_of_deactivating db.holds _ (deactivating_sessionRelease P s t)]
    rw [List.nodup_append]
    refine ⟨hi.holds_nodup, by simp, ?_⟩
    intro a ha hb
    rcases List.mem_map.mp ha with ⟨g, hg, rfl⟩
    have : g.id < db.next_id := hi.holds_lt g hg
    simp only [List.map_cons, List.map_nil, List.mem_singleton, newLockRow] at hb
    omega
  · -- hold ids stay below the id supply
    intro h hmem
    rcases List.mem_append.mp hmem with hl | hr
    · rcases List.mem_map.mp hl with ⟨g, hg, rfl⟩
      rw [(deactivating_sessionRelease P s t g).1]
      have := hi.holds_lt g hg
      show g.id < db.next_id + 1
      omega
    · have hhr : h = newLockRow db P u s q d t := by simpa using hr
      rw [hhr]
      show db.next_id < db.next_id + 1
      omega
  · -- capacity
    intro s' hs'
    by_cases hid : s'.id = P
    · have hs'eq : s' = slot :=
        List.inj_on_of_nodup_map hi.slots_nodup hs' hslotmem (by rw [hid, hslotP])
      subst hs'eq
      rw [hid, sumAll_append_single, sumAll_sessionRelease]
      have hcontrib :
          (if (newLockRow db P u s q d t).countsAt P t then
            (newLockRow db P u s q d t).quantity else 0) ≤ q := by
        split
        · simp [newLockRow]
        · omega
      unfold TimeSlot.available_count at h3
      omega
    · rw [sumAll_append_single]
      have hb : (P == s'.id) = false := by
        simpa using Ne.symm hid
      have hnone : (newLockRow db P u s q d t).countsAt s'.id t = false := by
        unfold Hold.countsAt newLockRow
        simp [hb]
      rw [hnone]
      have hmle := sumAll_map_le db.holds _ (deactivating_sessionRelease P s t)
        (qty_nonneg_of_inv hi) s'.id t
      have hcap := hi.cap s' hs'
      simp only [Bool.false_eq_true, if_false]
      omega
  · -- at most one active hold per pair
    intro sid sess'
    rw [countActivePair_append_single]
    by_cases hsid : sid = P
    · by_cases hsess : sess' = s
      · subst hsid hsess
        rw [countActivePair_sessionRelease]
        simp [newLockRow]
      · have hzero : ((newLockRow db P u s q d t).slot_id == sid &&
            (newLockRow db P u s q d t).session_id == sess' &&
            (newLockRow db P u s q d t).is_active) = false := by
          simp only [newLockRow, Bool.and_eq_false_iff]
          simp only [beq_eq_false_iff_ne, ne_eq, Bool.and_eq_false_iff]
          exact Or.inl (Or.inr (fun hss => hsess hss.symm))
        rw [hzero]
        have hle := countActivePair_map_le db.holds _
          (deactivating_sessionRelease P s t) sid sess'
        have := hi.uniq sid sess'
        simp only [Bool.false_eq_true, if_false]
        omega
    · have hzero : ((newLockRow db P u s q d t).slot_id == sid &&
          (newLockRow db P u s q d t).session_id == sess' &&
          (newLockRow db P u s q d t).is_active) = false := by
        simp only [newLockRow, Bool.and_eq_false_iff]
        simp only [beq_eq_false_iff_ne, ne_eq, Bool.and_eq_false_iff]
        exact Or.inl (Or.inl (fun hss => hsid hss.symm))
      rw [hzero]
      have hle := countActivePair_map_le db.holds _
        (deactivating_sessionRelease P s t) sid sess'
      have := hi.uniq sid sess'
      simp only [Bool.false_eq_true, if_false]
      omega

/-- When an active hold with the requested id is present (and hold ids are
distinct), `release_slot_lock` applies its update. -/
theorem release_slot_lock_of_active {db : DB} {lock_id : Nat} {now : Int}
    (lock : Hold) (hmem : lock ∈ db.holds) (hid : lock.id = lock_id)
    (hact : lock.is_active = true)
    (hnodup : (db.holds.map (fun h => h.id)).Nodup) :
    release_slot_lock db lock_id now =
      (true, { db with holds := db.holds.map (lockRelease lock_id now) }) := by
  unfold release_slot_lock
  rcases hfind : db.holds.find? (fun h => h.id == lock_id) with _ | g
  · exact absurd (by simpa using List.find?_eq_none.mp hfind lock hmem) (by simp [hid])
  · have hg_mem := List.mem_of_find?_eq_some hfind
    have hg_id : g.id = lock_id := by simpa using List.find?_some hfind
    have hg : g = lock :=
      List.inj_on_of_nodup_map hnodup hg_mem hmem (by rw [hg_id, hid])
    subst hg
    simp only [hfind]
    simp [hact]

theorem bookSlots_map_id (slots : List TimeSlot) (sid : Nat) (q : Int) :
    (bookSlots slots sid q).map (fun ts => ts.id) = slots.map (fun ts => ts.id) := by
  unfold bookSlots
  rw [List.map_map, List.map_map]
  refine List.map_congr_left ?_
  intro ts _
  simp only [Function.comp]
  split <;> split <;> simp_all

/-- Membership in the updated slot list: every row is the image of an
original row, which is untouched unless its id is the booked slot. -/
theorem bookSlots_mem {slots : List TimeSlot} {sid : Nat} {q : Int}
    {s' : TimeSlot} (hs' : s' ∈ bookSlots slots sid q) :
    ∃ s0 ∈ slots,
      (s0.id ≠ sid ∧ s' = s0) ∨
      (s0.id = sid ∧ s'.id = s0.id ∧ s'.booked_count = s0.booked_count + q ∧
        s'.total_capacity = s0.total_capacity ∧
        (s'.status = if s0.total_capacity - (s0.booked_count + q) = 0 then "full"
          else s0.status)) := by
  unfold bookSlots at hs'
  rcases List.mem_map.mp hs' with ⟨ts1, hts1, rfl⟩
  rcases List.mem_map.mp hts1 with ⟨s0, hs0, rfl⟩
  refine ⟨s0, hs0, ?_⟩
  by_cases hid : s0.id = sid
  · right
    simp only [hid, beq_self_eq_true, if_true, Bool.true_and, TimeSlot.available_count]
    by_cases hz : s0.total_capacity - (s0.booked_count + q) = 0 <;>
      simp [TimeSlot.available_count, hz, hid]
  · left
    have hb : (s0.id == sid) = false := by simpa using hid
    simp [hb, hid]

theorem inv_confirm {db : DB} {t : Int} (L : Nat) (fn ln em : String)
    (ph no : Option String) (dg : List String) (hi : Inv db t) :
    Inv (complete_slot_booking db L fn ln em ph no dg t).2 t := by
  unfold complete_slot_booking
  rcases hfind : db.holds.find? (fun h =>
      h.id == L && h.is_active && decide (t < h.expires_at)) with _ | lock
  · simp only [hfind]
    exact hi
  have hlockmem : lock ∈ db.holds := List.mem_of_find?_eq_some hfind
  have hlockp := List.find?_some hfind
  simp only [Bool.and_eq_true, beq_iff_eq, decide_eq_true_eq] at hlockp
  rcases hslot : db.slots.find? (fun ts => ts.id == lock.slot_id) with _ | slot
  · simp only [hfind, hslot]
    exact hi
  have hslotmem : slot ∈ db.slots := List.mem_of_find?_eq_some hslot
  have hslotid : slot.id = lock.slot_id := by simpa using List.find?_some hslot
  by_cases hcap : slot.available_count - sumExceptHold db.holds lock.slot_id L t
      < lock.quantity
  · simp only [hfind, hslot, hcap, if_true]
    exact hi
  rcases href : freshReference db.bookings dg with _ | reference
  · simp only [hfind, hslot, hcap, href, if_false]
    exact hi
  simp only [hfind, hslot, hcap, href, if_false]
  have hrel := @release_slot_lock_of_active
    { db with
      bookings := db.bookings ++ [newBookingRow db slot lock fn ln em ph no reference t]
      slots := bookSlots db.slots lock.slot_id lock.quantity
      next_id := db.next_id + 1 }
    L t lock hlockmem hlockp.1.1 hlockp.1.2 hi.holds_nodup
  rw [hrel]
  have hq : 0 < lock.quantity := hi.qty_pos lock hlockmem
  have hexc : 0 ≤ sumExceptHold db.holds lock.slot_id L t :=
    sum_filter_nonneg db.holds _ (qty_nonneg_of_inv hi)
  refine ⟨?_, ?_, ?_, ?_, ?_, ?_, ?_⟩
  · -- quantities stay positive
    intro h hmem
    rcases List.mem_map.mp hmem with ⟨g, hg, rfl⟩
    rw [(deactivating_lockRelease L t g).2.2.2.1]
    exact hi.qty_pos g hg
  · -- slot ids stay distinct
    show ((bookSlots db.slots lock.slot_id lock.quantity).map (fun ts => ts.id)).Nodup
    rw [bookSlots_map_id]
    exact hi.slots_nodup
  · -- hold ids stay distinct
    show ((db.holds.map (lockRelease L t)).map (fun h => h.id)).Nodup
    rw [map_id_of_deactivating db.holds _ (deactivating_lockRelease L t)]
    exact hi.holds_nodup
  · -- hold ids stay below the id supply
    intro h hmem
    rcases List.mem_map.mp hmem with ⟨g, hg, rfl⟩
    rw [(deactivating_lockRelease L t g).1]
    have := hi.holds_lt g hg
    show g.id < db.next_id + 1
    omega
  · -- capacity
    intro s' hs'
    rcases bookSlots_mem hs' with ⟨s0, hs0, hcase⟩
    have hsum := sumAll_lockRelease db.holds s'.id L t
    rcases hcase with ⟨hne, rfl⟩ | ⟨hid, hsid, hbooked, htotal, _⟩
    · have hle := sumAll_map_le db.holds _ (deactivating_lockRelease L t)
        (qty_nonneg_of_inv hi) s'.id t
      have := hi.cap s' hs0
      show s'.booked_count + sumAllHolds (db.holds.map (lockRelease L t)) s'.id t
        ≤ s'.total_capacity
      omega
    · have hs0slot : s0 = slot :=
        List.inj_on_of_nodup_map hi.slots_nodup hs0 hslotmem (by rw [hid, hslotid])
      subst hs0slot
      show s'.booked_count + sumAllHolds (db.holds.map (lockRelease L t)) s'.id t
        ≤ s'.total_capacity
      rw [hsid, hid, sumAll_lockRelease]
      unfold TimeSlot.available_count at hcap
      omega
  · -- at most one active hold per pair
    intro sid sess
    exact le_trans
      (countActivePair_map_le db.holds _ (deactivating_lockRelease L t) sid sess)
      (hi.uniq sid sess)
  · -- slot status reflects a zero available count
    intro s' hs'
    rcases bookSlots_mem hs' with ⟨s0, hs0, hcase⟩
    rcases hcase with ⟨_, rfl⟩ | ⟨hid, hsid, hbooked, htotal, hstatus⟩
    · exact hi.status_full s' hs0
    · have hs0slot : s0 = slot :=
        List.inj_on_of_nodup_map hi.slots_nodup hs0 hslotmem (by rw [hid, hslotid])
      subst hs0slot
      unfold TimeSlot.available_count
      rw [hbooked, htotal]
      by_cases hz : s0.total_capacity - (s0.booked_count + lock.quantity) = 0
      · rw [hstatus, if_pos hz]
        simp [hz]
      · rw [hstatus, if_neg hz]
        constructor
        · intro hfull
          exfalso
          have hfull0 := (hi.status_full s0 hslotmem).mp hfull
          unfold TimeSlot.available_count at hfull0 hcap
          omega
        · intro h0
          exact absurd h0 hz

theorem inv_applyOp {db : DB} (op : Op) (t' : Int) (hi : Inv db t') :
    Inv (applyOp db op t') t' := by
  cases op with
  | list e s =>
    show Inv (get_available_slots db e s t').2 t'
    rw [get_available_slots_state]
    exact inv_sweep hi
  | create sid u s q d => exact inv_create sid u s q d hi
  | confirm l fn ln em ph no dg => exact inv_confirm l fn ln em ph no dg hi
  | verify l => exact inv_verify l hi
  | release l => exact inv_release l hi
  | sweep => exact inv_sweep hi

/-- Every reachable committed state satisfies the inductive invariant. -/
theorem reachable_inv {db : DB} {t : Int} (h : Reachable db t) : Inv db t := by
  induction h with
  | init db t hg =>
    obtain ⟨hh, _, _, hnd, hs⟩ := hg
    refine ⟨?_, hnd, ?_, ?_, ?_, ?_, ?_⟩
    · rw [hh]
      intro h hmem
      simp at hmem
    · rw [hh]
      simp
    · rw [hh]
      intro h hmem
      simp at hmem
    · intro s hsmem
      rw [hh]
      have := (hs s hsmem).1
      simp [sumAllHolds]
      omega
    · intro sid sess
      rw [hh]
      simp [countActivePair]
    · intro s hsmem
      exact (hs s hsmem).2
  | step db t op t' hr hle ih => exact inv_applyOp op t' (inv_lift ih hle)

/-- At the sweep time itself, the sweep does not change which holds count:
it deactivates exactly the holds that are already expired. -/
theorem countsAt_expireRelease (now : Int) (h : Hold) (sid : Nat) :
    (expireRelease now h).countsAt sid now = h.countsAt sid now := by
  unfold expireRelease Hold.countsAt
  by_cases h1 : h.is_active = true <;> by_cases h2 : h.expires_at ≤ now <;>
    simp [h1, h2]

theorem sumOther_sweep (l : List Hold) (sid : Nat) (sess : Option String)
    (now : Int) :
    sumOtherSessions (l.map (expireRelease now)) sid sess now =
      sumOtherSessions l sid sess now := by
  unfold sumOtherSessions
  rw [sum_filter_of_map l _ _ (fun h => (deactivating_expireRelease now h).2.2.2.1)]
  refine congrArg _ ?_
  refine congrArg _ ?_
  refine List.filter_congr ?_
  intro h _
  rw [countsAt_expireRelease, (deactivating_expireRelease now h).2.2.1]

theorem sumOther_cons_own (g : Hold) (l : List Hold) (sid : Nat) (s : String)
    (now : Int) (hs : g.session_id = s) :
    sumOtherSessions (g :: l) sid (some s) now =
      sumOtherSessions l sid (some s) now := by
  unfold sumOtherSessions
  rw [List.filter_cons]
  simp [hs]

theorem sumOther_cons_other (g : Hold) (l : List Hold) (s : String)
    (now : Int) (hs : g.session_id ≠ s) (hact : g.is_active = true)
    (hexp : now < g.expires_at) :
    sumOtherSessions (g :: l) g.slot_id (some s) now =
      g.quantity + sumOtherSessions l g.slot_id (some s) now := by
  unfold sumOtherSessions Hold.countsAt
  rw [List.filter_cons]
  simp [hs, hact, hexp]

instance instRowLETotal :
    IsTotal AvailRow (fun a b => a.start_time ≤ b.start_time) :=
  ⟨fun a b => Int.le_total a.start_time b.start_time⟩

instance instRowLETrans :
    IsTrans AvailRow (fun a b => a.start_time ≤ b.start_time) :=
  ⟨fun _ _ _ hab hbc => le_trans hab hbc⟩

theorem sortByStart_perm (rows : List AvailRow) : (sortByStart rows).Perm rows :=
  List.perm_insertionSort _ rows

theorem sortByStart_sorted (rows : List AvailRow) :
    List.Pairwise (fun a b => a.start_time ≤ b.start_time) (sortByStart rows) :=
  List.sorted_insertionSort _ rows

/-- Inversion of a successful `create_slot_lock`: every input check passed
and the committed state is the session release followed by the insert. -/
theorem create_ok_inv {db : DB} {P : Nat} {u : Option Nat} {s : String}
    {q d t : Int} {hid : Nat} {db' : DB}
    (h : create_slot_lock db P u (some s) q d t = (.ok hid, db')) :
    hid = db.next_id ∧
    db' = { db with
            holds := db.holds.map (sessionRelease P s t) ++ [newLockRow db P u s q d t]
            next_id := db.next_id + 1 } ∧
    ∃ slot, db.slots.find? (fun ts => ts.id == P) = some slot ∧
      ¬ q ≤ 0 ∧ slot.status = "available" ∧ ¬ slot.start_time ≤ t ∧
      ¬ slot.available_count - sumOtherSessions db.holds P (some s) t < q := by
  unfold create_slot_lock at h
  by_cases h0 : q ≤ 0
  · simp [h0] at h
  rcases hfind : db.slots.find? (fun ts => ts.id == P) with _ | slot
  · simp [h0, hfind] at h
  by_cases h1 : slot.status = "available"
  swap
  · simp [h0, hfind, h1] at h
  by_cases h2 : slot.start_time ≤ t
  · simp [h0, hfind, h1, h2] at h
  by_cases h3 : slot.available_count - sumOtherSessions db.holds P (some s) t < q
  · simp [h0, hfind, h1, h2, h3] at h
  simp only [h0, hfind, h1, h2, h3, if_false, if_true, ite_false, ite_true,
    not_false_eq_true, not_true_eq_false, ne_eq, ite_not, Prod.mk.injEq,
    Except.ok.injEq] at h
  exact ⟨h.1.symm, h.2.symm, slot, hfind, h0, h1, h2, h3⟩

/-- The success equation of `create_slot_lock`. -/
theorem create_ok_eq {db : DB} {P : Nat} {u : Option Nat} {s : String}
    {q d t : Int} {slot : TimeSlot}
    (h0 : ¬ q ≤ 0)
    (hfind : db.slots.find? (fun ts => ts.id == P) = some slot)
    (h1 : slot.status = "available") (h2 : ¬ slot.start_time ≤ t)
    (h3 : ¬ slot.available_count - sumOtherSessions db.holds P (some s) t < q) :
    create_slot_lock db P u (some s) q d t =
      (.ok db.next_id,
       { db with
         holds := db.holds.map (sessionRelease P s t) ++ [newLockRow db P u s q d t]
         next_id := db.next_id + 1 }) := by
  unfold create_slot_lock
  simp only [h0, hfind, h1, h2, h3, if_false, if_true, ite_false, ite_true,
    not_false_eq_true, not_true_eq_false, ne_eq, ite_not]

/-- C1: for every reachable committed state and every slot, `booked_count`
plus the summed quantities of the active, non-expired holds on the slot is
at most `total_capacity`; in particular the invariant is preserved by
`create_slot_lock` (which checks effective availability excluding only the
callers own session) and by `complete_slot_booking` (which re-checks the
residual excluding the consumed hold), since both are steps of
`Reachable`. -/
theorem claim_C1_capacity_invariant {db : DB} {t : Int} (h : Reachable db t) :
    ∀ s ∈ db.slots,
      s.booked_count + sumAllHolds db.holds s.id t ≤ s.total_capacity :=
  (reachable_inv h).cap

/-- A one-slot initial state used to instantiate the invariant claims. -/
def wdbC1 : DB :=
  { events := []
    slots := [{ id := 1, event_id := 1, start_time := 100, end_time := 160,
                total_capacity := 3, booked_count := 1, status := "available",
                price := 0 }]
    holds := []
    bookings := []
    attempts := []
    next_id := 1 }

/-- The state of `wdbC1` after one committed `create_slot_lock` step. -/
def wdbC1' : DB := applyOp wdbC1 (.create 1 none (some "A") 2 10) 0

theorem claim_C1_capacity_invariant_witness :
    ({ id := 1, event_id := 1, start_time := 100, end_time := 160,
       total_capacity := 3, booked_count := 1, status := "available",
       price := 0 } : TimeSlot).booked_count +
      sumAllHolds wdbC1'.holds 1 0 ≤ 3 :=
  claim_C1_capacity_invariant
    (Reachable.step wdbC1 0 (.create 1 none (some "A") 2 10) 0
      (Reachable.init wdbC1 0 (by unfold goodInit; decide)) le_rfl)
    { id := 1, event_id := 1, start_time := 100, end_time := 160,
      total_capacity := 3, booked_count := 1, status := "available",
      price := 0 }
    (by decide)

/-- C6: in every reachable committed state at most one active hold exists
per `(slot_id, session_id)` pair, and a successful `create_slot_lock` for a
slot and session deactivates (`is_active = false`, `released_at = now()`)
every previously active hold of that same pair, which is why after a
re-hold the old hold is released and only the new hold counts. -/
theorem claim_C6_hold_uniqueness {db : DB} {t : Int} (h : Reachable db t) :
    (∀ sid sess, countActivePair db.holds sid sess ≤ 1) ∧
    (∀ (P : Nat) (u : Option Nat) (s : String) (q d t' : Int) (hid : Nat)
      (db' : DB), create_slot_lock db P u (some s) q d t' = (.ok hid, db') →
      ∀ hold ∈ db.holds, hold.slot_id = P → hold.session_id = s →
        hold.is_active = true →
        ({ hold with is_active := false, released_at := some t' } : Hold)
          ∈ db'.holds) := by
  refine ⟨(reachable_inv h).uniq, ?_⟩
  intro P u s q d t' hid db' hok hold hmem hslot hsess hact
  obtain ⟨-, rfl, -⟩ := create_ok_inv hok
  refine List.mem_append.mpr (Or.inl ?_)
  refine List.mem_map.mpr ⟨hold, hmem, ?_⟩
  unfold sessionRelease
  simp [hslot, hsess, hact]

/-- A one-slot initial state for the hold uniqueness claim. -/
def wdbC6 : DB :=
  { events := []
    slots := [{ id := 6, event_id := 1, start_time := 100, end_time := 160,
                total_capacity := 5, booked_count := 0, status := "available",
                price := 0 }]
    holds := []
    bookings := []
    attempts := []
    next_id := 1 }

/-- The state of `wdbC6` after session A holds one seat. -/
def wdbC6' : DB := applyOp wdbC6 (.create 6 none (some "A") 1 10) 0

theorem claim_C6_hold_uniqueness_witness :
    countActivePair wdbC6'.holds 6 "A" ≤ 1 ∧
    ({ id := 1, slot_id := 6, user_id := none, session_id := "A",
       quantity := 1, expires_at := 10, is_active := false,
       released_at := some 5 } : Hold)
      ∈ (create_slot_lock wdbC6' 6 none (some "A") 3 10 5).2.holds := by
  have hreach : Reachable wdbC6' 0 :=
    Reachable.step wdbC6 0 (.create 6 none (some "A") 1 10) 0
      (Reachable.init wdbC6 0 (by unfold goodInit; decide)) le_rfl
  have h := claim_C6_hold_uniqueness hreach
  refine ⟨h.1 6 "A", ?_⟩
  have hok : create_slot_lock wdbC6' 6 none (some "A") 3 10 5 =
      (.ok 2, (create_slot_lock wdbC6' 6 none (some "A") 3 10 5).2) := rfl
  exact h.2 6 none "A" 3 10 5 2 _ hok
    { id := 1, slot_id := 6, user_id := none, session_id := "A",
      quantity := 1, expires_at := 10, is_active := true, released_at := none }
    (by decide) rfl rfl rfl

/-- The capacity-one slot of `wdbC8`. -/
def wslotC8 : TimeSlot :=
  { id := 7, event_id := 1, start_time := 100, end_time := 160,
    total_capacity := 1, booked_count := 0, status := "available",
    price := 0 }

/-- A capacity-one initial state for the slot status claim. -/
def wdbC8 : DB :=
  { events := []
    slots := [wslotC8]
    holds := []
    bookings := []
    attempts := []
    next_id := 1 }

/-- The state of `wdbC8` after a committed `create_slot_lock` takes the last
effective seat. -/
def wdbC8' : DB := applyOp wdbC8 (.create 7 none (some "Z") 1 10) 0

/-- C8 counterexample: after a committed `create_slot_lock` that takes the
last effective seat, the slot still has `status = 'available'` even though
`available_count` minus the summed active non-expired hold quantities is 0 —
`create_slot_lock` never updates `status`, so the claimed equivalence fails
on this reachable state. -/
theorem claim_C8_counterexample :
    Reachable wdbC8' 0 ∧
    wdbC8'.slots.map (fun s => s.status) = ["available"] ∧
    wdbC8'.slots.map
      (fun s => s.available_count - sumAllHolds wdbC8'.holds s.id 0) = [0] :=
  ⟨Reachable.step wdbC8 0 (.create 7 none (some "Z") 1 10) 0
      (Reachable.init wdbC8 0 (by unfold goodInit; decide)) le_rfl,
    by decide, by decide⟩

/-- C8 (amended): after any committed operation a slot has
`status = 'full'` iff its `available_count` (that is,
`total_capacity - booked_count`, ignoring holds) is 0, provided the initial
slots were consistent: only `complete_slot_booking` updates the status, and
neither holds nor hold expiry are taken into account. -/
theorem claim_C8_status_amended {db : DB} {t : Int} (h : Reachable db t) :
    ∀ s ∈ db.slots, (s.status = "full" ↔ s.available_count = 0) :=
  (reachable_inv h).status_full

theorem claim_C8_status_amended_witness :
    (wslotC8.status = "full" ↔ wslotC8.available_count = 0) :=
  claim_C8_status_amended (Reachable.init wdbC8 0 (by unfold goodInit; decide))
    wslotC8 (by decide)

/-- An active public event with no slots, for the pre-flight claim. -/
def wdbC9 : DB :=
  { events := [{ id := 1, status := "active", visibility := "public" }]
    slots := []
    holds := []
    bookings := []
    attempts := []
    next_id := 0 }

/-- C9 counterexample: for an active public event with no qualifying slots
the claim predicts the tuple `(count > 0, null, count)`, i.e. a null
reason, but `can_book_event` returns the non-null reason
`'No available slots'`. -/
theorem claim_C9_counterexample :
    can_book_event wdbC9 1 1 0 = (false, some "No available slots", 0) ∧
    (can_book_event wdbC9 1 1 0).2.1 ≠ (none : Option String) := by
  constructor <;> decide

/-- C9 (amended): `can_book_event` never raises: it returns
`(false, 'Event not found' | 'Event is not active' |
'Event is not publicly available', 0)` for a missing, inactive or
non-public event, and otherwise counts the slots whose session-agnostic
effective availability covers the quantity, returning
`(false, 'No available slots', 0)` when the count is 0 and
`(true, 'Event is available for booking', count)` otherwise — the reason
component is never null. -/
theorem claim_C9_can_book_amended (db : DB) (e : Nat) (q now : Int) :
    ((∀ ev ∈ db.events, ev.id ≠ e) →
      can_book_event db e q now = (false, some "Event not found", 0)) ∧
    (∀ ev, db.events.find? (fun x => x.id == e) = some ev →
      ((ev.status ≠ "active" →
        can_book_event db e q now = (false, some "Event is not active", 0)) ∧
       (ev.status = "active" → ev.visibility ≠ "public" →
        ev.visibility ≠ "unlisted" →
        can_book_event db e q now =
          (false, some "Event is not publicly available", 0)) ∧
       (ev.status = "active" →
        (ev.visibility = "public" ∨ ev.visibility = "unlisted") →
        ((countBookableSlots db e q now = 0 →
           can_book_event db e q now = (false, some "No available slots", 0)) ∧
         (countBookableSlots db e q now ≠ 0 →
           can_book_event db e q now =
             (true, some "Event is available for booking",
               countBookableSlots db e q now)))))) := by
  constructor
  · intro habs
    have hfind : db.events.find? (fun x => x.id == e) = none :=
      List.find?_eq_none.mpr (fun x hx => by simpa using habs x hx)
    unfold can_book_event
    simp only [hfind]
  · intro ev hfind
    unfold can_book_event
    simp only [hfind]
    refine ⟨?_, ?_, ?_⟩
    · intro hst
      simp [hst]
    · intro hst hv1 hv2
      simp [hst, hv1, hv2]
    · intro hst hv
      rcases hv with hv | hv <;>
        exact ⟨fun hc => by simp [hst, hv, hc], fun hc => by simp [hst, hv, hc]⟩

theorem claim_C9_can_book_amended_witness :
    can_book_event wdbC9 2 1 0 = (false, some "Event not found", 0) :=
  (claim_C9_can_book_amended wdbC9 2 1 0).1 (by decide)

/-- A single active hold, for the verify claims. -/
def wdbC7 : DB :=
  { events := []
    slots := []
    holds := [{ id := 1, slot_id := 3, user_id := none, session_id := "A",
                quantity := 1, expires_at := 100, is_active := true,
                released_at := none }]
    bookings := []
    attempts := []
    next_id := 2 }

/-- C7 counterexample: for a live hold the claim predicts the row
`(true, null, expires_at)`, but `verify_lock` returns the non-null reason
`'Lock is valid'`. -/
theorem claim_C7_counterexample :
    (verify_lock wdbC7 1 0).1 = (true, some "Lock is valid", some 100) ∧
    (verify_lock wdbC7 1 0).1 ≠ (true, (none : Option String), some 100) := by
  constructor <;> decide

/-- C7 (amended): `verify_lock` returns `(false, 'Lock not found', null)`
for a missing hold, `(false, 'Lock has been released', expires_at)` for an
inactive one, performs the self-healing deactivation and returns
`(false, 'Lock has expired', expires_at)` for an active hold with
`expires_at <= now()`, and returns `(true, 'Lock is valid', expires_at)` —
a non-null reason — for a live one; the self-healing transition is
idempotent: re-running `verify_lock` on the healed state changes nothing. -/
theorem claim_C7_verify_amended (db : DB) (L : Nat) (now : Int) :
    ((∀ h ∈ db.holds, h.id ≠ L) →
      verify_lock db L now = ((false, some "Lock not found", none), db)) ∧
    (∀ h, db.holds.find? (fun g => g.id == L) = some h →
      ((h.is_active = false →
        verify_lock db L now =
          ((false, some "Lock has been released", some h.expires_at), db)) ∧
       (h.is_active = true → h.expires_at ≤ now →
        (verify_lock db L now =
          ((false, some "Lock has expired", some h.expires_at),
            { db with holds := db.holds.map (idRelease L now) }) ∧
         (∀ g ∈ db.holds.map (idRelease L now), g.id = L → g.is_active = false) ∧
         (verify_lock { db with holds := db.holds.map (idRelease L now) } L now).2 =
           { db with holds := db.holds.map (idRelease L now) })) ∧
       (h.is_active = true → now < h.expires_at →
        verify_lock db L now =
          ((true, some "Lock is valid", some h.expires_at), db)))) := by
  constructor
  · intro habs
    have hfind : db.holds.find? (fun g => g.id == L) = none :=
      List.find?_eq_none.mpr (fun x hx => by simpa using habs x hx)
    unfold verify_lock
    simp only [hfind]
  · intro h hfind
    have hid : h.id = L := by simpa using List.find?_some hfind
    refine ⟨?_, ?_, ?_⟩
    · intro hin
      unfold verify_lock
      simp [hfind, hin]
    · intro hact hexp
      refine ⟨?_, ?_, ?_⟩
      · unfold verify_lock
        simp [hfind, hact, hexp]
      · intro g hg hgid
        rcases List.mem_map.mp hg with ⟨g0, hg0, rfl⟩
        have hg0id : g0.id = L := by
          rw [(deactivating_idRelease L now g0).1] at hgid
          exact hgid
        unfold idRelease
        simp [hg0id]
      · have hcomp : ((fun g => g.id == L) ∘ idRelease L now) =
            fun g => g.id == L := by
          funext g
          simp only [Function.comp]
          rw [(deactivating_idRelease L now g).1]
        have hfind2 : (db.holds.map (idRelease L now)).find?
            (fun g => g.id == L) = some (idRelease L now h) := by
          rw [List.find?_map, hcomp, hfind]
          rfl
        unfold verify_lock
        simp only [hfind2]
        have : idRelease L now h =
            { h with is_active := false, released_at := some now } := by
          unfold idRelease
          simp [hid]
        rw [this]
        simp
    · intro hact hexp
      unfold verify_lock
      simp [hfind, hact, not_le.mpr hexp]

theorem claim_C7_verify_amended_witness :
    verify_lock wdbC7 1 0 = ((true, some "Lock is valid", some 100), wdbC7) :=
  ((claim_C7_verify_amended wdbC7 1 0).2
    { id := 1, slot_id := 3, user_id := none, session_id := "A",
      quantity := 1, expires_at := 100, is_active := true,
      released_at := none }
    (by decide)).2.2 rfl (by decide)

/-- C5: `create_slot_lock(slot_id, user_id?, session_id, quantity,
duration)` fails InvalidQuantity exactly when `quantity <= 0`; then
SlotNotFound exactly when no slot exists; then SlotUnavailable (one of the
two exceptions `slotNotAvailable` / `slotInPast`) exactly when the slot is
not 'available' or starts in the past; then CapacityExceeded carrying the
computed effective availability in the payload exactly when that
availability (excluding the callers own session) is below the quantity —
the checks fire in that order — and on success the new active hold with
`expires_at = now() + duration` is inserted and its id returned; every
failure leaves the state unchanged. -/
theorem claim_C5_create_hold_spec (db : DB) (P : Nat) (u : Option Nat)
    (s : String) (q d now : Int) :
    ((create_slot_lock db P u (some s) q d now).1 =
        .error .quantityNotPositive ↔ q ≤ 0) ∧
    ((create_slot_lock db P u (some s) q d now).1 = .error .slotNotFound ↔
      (¬ q ≤ 0 ∧ db.slots.find? (fun ts => ts.id == P) = none)) ∧
    (∀ slot, db.slots.find? (fun ts => ts.id == P) = some slot → ¬ q ≤ 0 →
      ((((create_slot_lock db P u (some s) q d now).1 =
            .error .slotNotAvailable ∨
          (create_slot_lock db P u (some s) q d now).1 = .error .slotInPast) ↔
        (slot.status ≠ "available" ∨ slot.start_time ≤ now)) ∧
       ((create_slot_lock db P u (some s) q d now).1 =
          .error (.insufficientSlots
            (slot.available_count - sumOtherSessions db.holds P (some s) now)) ↔
        (slot.status = "available" ∧ now < slot.start_time ∧
          slot.available_count - sumOtherSessions db.holds P (some s) now < q)) ∧
       ((slot.status = "available" ∧ now < slot.start_time ∧
          ¬ slot.available_count - sumOtherSessions db.holds P (some s) now < q) →
        create_slot_lock db P u (some s) q d now =
          (.ok db.next_id,
           { db with
             holds := db.holds.map (sessionRelease P s now) ++
               [newLockRow db P u s q d now]
             next_id := db.next_id + 1 })))) ∧
    ((newLockRow db P u s q d now).is_active = true ∧
      (newLockRow db P u s q d now).expires_at = now + d ∧
      (newLockRow db P u s q d now).id = db.next_id ∧
      (newLockRow db P u s q d now).quantity = q ∧
      (newLockRow db P u s q d now).session_id = s ∧
      (newLockRow db P u s q d now).slot_id = P) ∧
    (∀ e, (create_slot_lock db P u (some s) q d now).1 = .error e →
      (create_slot_lock db P u (some s) q d now).2 = db) := by
  by_cases h0 : q ≤ 0
  · have hr : create_slot_lock db P u (some s) q d now =
        (.error .quantityNotPositive, db) := by
      unfold create_slot_lock
      simp [h0]
    exact ⟨by simp [hr, h0], by simp [hr, h0],
      fun slot hfind hq0 => absurd h0 hq0, by simp [newLockRow],
      by simp [hr]⟩
  rcases hfind : db.slots.find? (fun ts => ts.id == P) with _ | slot
  · have hr : create_slot_lock db P u (some s) q d now =
        (.error .slotNotFound, db) := by
      unfold create_slot_lock
      simp [h0, hfind]
    refine ⟨by simp [hr, h0],
      (by
        simp [hr, h0]
        intro x hx
        simpa using List.find?_eq_none.mp hfind x hx),
      ?_, by simp [newLockRow], by simp [hr]⟩
    intro slot' hfind' _
    rw [hfind] at hfind'
    exact Option.noConfusion hfind'
  have hmain : ∀ slot', db.slots.find? (fun ts => ts.id == P) = some slot' →
      slot' = slot := by
    intro slot' hfind'
    rw [hfind] at hfind'
    exact (Option.some.injEq _ _ ▸ hfind').symm
  by_cases h1 : slot.status = "available"
  swap
  · have hr : create_slot_lock db P u (some s) q d now =
        (.error .slotNotAvailable, db) := by
      unfold create_slot_lock
      simp [h0, hfind, h1]
    refine ⟨by simp [hr, h0], by simp [hr, hfind], ?_, by simp [newLockRow],
      by simp [hr]⟩
    intro slot' hfind' _
    rcases hmain slot' hfind'
    exact ⟨by simp [hr, h1], by simp [hr, h1], fun hc => absurd hc.1 h1⟩
  by_cases h2 : slot.start_time ≤ now
  · have hr : create_slot_lock db P u (some s) q d now =
        (.error .slotInPast, db) := by
      unfold create_slot_lock
      simp [h0, hfind, h1, h2]
    refine ⟨by simp [hr, h0], by simp [hr, hfind], ?_, by simp [newLockRow],
      by simp [hr]⟩
    intro slot' hfind' _
    rcases hmain slot' hfind'
    refine ⟨by simp [hr, h2],
      (by
        simp [hr]
        intro _ hlt
        exact absurd h2 (not_le.mpr hlt)),
      ?_⟩
    intro hc
    exact absurd h2 (not_le.mpr hc.2.1)
  by_cases h3 : slot.available_count - sumOtherSessions db.holds P (some s) now < q
  · have hr : create_slot_lock db P u (some s) q d now =
        (.error (.insufficientSlots
          (slot.available_count - sumOtherSessions db.holds P (some s) now)), db) := by
      unfold create_slot_lock
      simp [h0, hfind, h1, h2, h3]
    refine ⟨by simp [hr, h0], by simp [hr, hfind], ?_, by simp [newLockRow],
      by simp [hr]⟩
    intro slot' hfind' _
    rcases hmain slot' hfind'
    refine ⟨by simp [hr, h1, h2, not_le.mp h2], by simp [hr, h1, not_le.mp h2, h3], ?_⟩
    intro hc
    exact absurd h3 hc.2.2
  · have hr := create_ok_eq (u := u) (d := d) h0 hfind h1 h2 h3
    refine ⟨by simp [hr, h0], by simp [hr, hfind], ?_, by simp [newLockRow],
      by simp [hr]⟩
    intro slot' hfind' _
    rcases hmain slot' hfind'
    refine ⟨by simp [hr, h1, h2], by simp [hr, h3], fun _ => hr⟩

/-- A one-slot state for the create characterization. -/
def wdbC5 : DB :=
  { events := []
    slots := [{ id := 1, event_id := 1, start_time := 100, end_time := 160,
                total_capacity := 2, booked_count := 0, status := "available",
                price := 0 }]
    holds := []
    bookings := []
    attempts := []
    next_id := 1 }

theorem claim_C5_create_hold_spec_witness :
    (create_slot_lock wdbC5 1 none (some "A") 0 10 0).1 =
      .error .quantityNotPositive ∧
    create_slot_lock wdbC5 1 none (some "A") 1 10 0 =
      (.ok wdbC5.next_id,
       { wdbC5 with
         holds := wdbC5.holds.map (sessionRelease 1 "A" 0) ++
           [newLockRow wdbC5 1 none "A" 1 10 0]
         next_id := wdbC5.next_id + 1 }) :=
  ⟨(claim_C5_create_hold_spec wdbC5 1 none "A" 0 10 0).1.mpr (by decide),
   ((claim_C5_create_hold_spec wdbC5 1 none "A" 1 10 0).2.2.1
     { id := 1, event_id := 1, start_time := 100, end_time := 160,
       total_capacity := 2, booked_count := 0, status := "available",
       price := 0 }
     (by decide) (by decide)).2.2 (by refine ⟨rfl, by decide, by decide⟩)⟩

/-- C2: `complete_slot_booking(lock_id, attendee)` fails with the
HoldInvalid exception (`Lock not found or expired`) exactly when no hold
with that id is active and unexpired; otherwise, for the validated hold
and its slot, it fails with the CapacityExceeded exception
(`Insufficient capacity available`) exactly when the residual —
`available_count` minus the summed quantities of all other active
non-expired holds on the slot — is below the holds quantity; and every
failure rolls the transaction back, leaving the state (bookings and
`booked_count` included) unchanged. -/
theorem claim_C2_confirm_failure_spec (db : DB) (L : Nat) (fn ln em : String)
    (ph no : Option String) (dg : List String) (now : Int) :
    ((complete_slot_booking db L fn ln em ph no dg now).1 =
        .error .lockNotFoundOrExpired ↔
      ∀ h ∈ db.holds, h.id = L → ¬ (h.is_active = true ∧ now < h.expires_at)) ∧
    (∀ lock, db.holds.find? (fun h =>
        h.id == L && h.is_active && decide (now < h.expires_at)) = some lock →
      ∀ slot, db.slots.find? (fun ts => ts.id == lock.slot_id) = some slot →
        ((complete_slot_booking db L fn ln em ph no dg now).1 =
            .error .insufficientCapacity ↔
          slot.available_count - sumExceptHold db.holds lock.slot_id L now <
            lock.quantity)) ∧
    (∀ e, (complete_slot_booking db L fn ln em ph no dg now).1 = .error e →
      (complete_slot_booking db L fn ln em ph no dg now).2 = db) := by
  rcases hfind : db.holds.find? (fun h =>
      h.id == L && h.is_active && decide (now < h.expires_at)) with _ | lock
  · have hr : complete_slot_booking db L fn ln em ph no dg now =
        (.error .lockNotFoundOrExpired, db) := by
      unfold complete_slot_booking
      simp only [hfind]
    refine ⟨iff_of_true (by simp [hr]) ?_, ?_, by simp [hr]⟩
    · intro h hm hidL hc
      have := List.find?_eq_none.mp hfind h hm
      simp [hidL, hc.1] at this
      exact absurd hc.2 (not_lt.mpr this)
    · intro lock' hfind'
      rw [hfind] at hfind'
      exact Option.noConfusion hfind'
  · have hmem : lock ∈ db.holds := List.mem_of_find?_eq_some hfind
    have hp := List.find?_some hfind
    simp only [Bool.and_eq_true, beq_iff_eq, decide_eq_true_eq] at hp
    have hRHS1 : ¬ ∀ h ∈ db.holds, h.id = L →
        ¬ (h.is_active = true ∧ now < h.expires_at) :=
      fun hall => hall lock hmem hp.1.1 ⟨hp.1.2, hp.2⟩
    have hlock_uniq : ∀ lock', db.holds.find? (fun h =>
        h.id == L && h.is_active && decide (now < h.expires_at)) = some lock' →
        lock' = lock := by
      intro lock' hfind'
      rw [hfind] at hfind'
      exact (Option.some.injEq _ _ ▸ hfind').symm
    rcases hslot : db.slots.find? (fun ts => ts.id == lock.slot_id) with _ | slot
    · have hr : complete_slot_booking db L fn ln em ph no dg now =
          (.error .slotRowMissing, db) := by
        unfold complete_slot_booking
        simp only [hfind, hslot]
      refine ⟨iff_of_false (by simp [hr]) hRHS1, ?_, by simp [hr]⟩
      intro lock' hfind' slot' hslot'
      rcases hlock_uniq lock' hfind'
      rw [hslot] at hslot'
      exact Option.noConfusion hslot'
    · have hslot_uniq : ∀ slot', db.slots.find?
          (fun ts => ts.id == lock.slot_id) = some slot' → slot' = slot := by
        intro slot' hslot'
        rw [hslot] at hslot'
        exact (Option.some.injEq _ _ ▸ hslot').symm
      by_cases hcap : slot.available_count -
          sumExceptHold db.holds lock.slot_id L now < lock.quantity
      · have hr : complete_slot_booking db L fn ln em ph no dg now =
            (.error .insufficientCapacity, db) := by
          unfold complete_slot_booking
          simp only [hfind, hslot, hcap, if_true]
        refine ⟨iff_of_false (by simp [hr]) hRHS1, ?_, by simp [hr]⟩
        intro lock' hfind' slot' hslot'
        rcases hlock_uniq lock' hfind'
        rcases hslot_uniq slot' hslot'
        exact iff_of_true (by simp [hr]) hcap
      · rcases href : freshReference db.bookings dg with _ | reference
        · have hr : complete_slot_booking db L fn ln em ph no dg now =
              (.error .referenceSupplyExhausted, db) := by
            unfold complete_slot_booking
            simp only [hfind, hslot, hcap, href, if_false]
          refine ⟨iff_of_false (by simp [hr]) hRHS1, ?_, by simp [hr]⟩
          intro lock' hfind' slot' hslot'
          rcases hlock_uniq lock' hfind'
          rcases hslot_uniq slot' hslot'
          exact iff_of_false (by simp [hr]) hcap
        · have hr1 : (complete_slot_booking db L fn ln em ph no dg now).1 =
              .ok db.next_id := by
            unfold complete_slot_booking
            simp only [hfind, hslot, hcap, href, if_false]
            rfl
          refine ⟨iff_of_false (by simp [hr1]) hRHS1, ?_, ?_⟩
          · intro lock' hfind' slot' hslot'
            rcases hlock_uniq lock' hfind'
            rcases hslot_uniq slot' hslot'
            exact iff_of_false (by simp [hr1]) hcap
          · intro e he
            rw [hr1] at he
            exact Except.noConfusion he

/-- A full slot with a live hold, for the confirm-failure claim. -/
def wdbC2 : DB :=
  { events := []
    slots := [{ id := 3, event_id := 1, start_time := 100, end_time := 160,
                total_capacity := 1, booked_count := 1, status := "full",
                price := 0 }]
    holds := [{ id := 1, slot_id := 3, user_id := none, session_id := "A",
                quantity := 1, expires_at := 100, is_active := true,
                released_at := none }]
    bookings := []
    attempts := []
    next_id := 2 }

theorem claim_C2_confirm_failure_spec_witness :
    (complete_slot_booking wdbC2 1 "Ada" "Lovelace" "ada@example.org"
        none none [] 0).1 = .error .insufficientCapacity ∧
    (complete_slot_booking wdbC2 1 "Ada" "Lovelace" "ada@example.org"
        none none [] 0).2 = wdbC2 := by
  have h := claim_C2_confirm_failure_spec wdbC2 1 "Ada" "Lovelace"
    "ada@example.org" none none [] 0
  have h1 := (h.2.1
    { id := 1, slot_id := 3, user_id := none, session_id := "A",
      quantity := 1, expires_at := 100, is_active := true,
      released_at := none }
    (by decide)
    { id := 3, event_id := 1, start_time := 100, end_time := 160,
      total_capacity := 1, booked_count := 1, status := "full", price := 0 }
    (by decide)).mpr (by decide)
  exact ⟨h1, h.2.2 _ h1⟩

/-- The characters an md5 hex digest is made of. -/
def hexLowerChars : List Char := "0123456789abcdef".data

/-- The characters a generated booking reference is made of. -/
def upperHexChars : List Char := "0123456789ABCDEF".data

/-- An md5 hex digest: 32 characters drawn from `[0-9a-f]`. -/
def isHexDigest (d : String) : Bool :=
  d.data.length == 32 && d.data.all (fun c => hexLowerChars.contains c)

/-- The spec pattern for booking references: exactly 8 characters from
`[A-Z0-9]`. -/
def matchesRefPattern (r : String) : Bool :=
  r.data.length == 8 && r.data.all (fun c => c.isUpper || c.isDigit)

theorem toUpper_mem_upperHex :
    ∀ c ∈ hexLowerChars, Char.toUpper c ∈ upperHexChars := by
  decide

theorem upperHex_pattern :
    ∀ c ∈ upperHexChars, (c.isUpper || c.isDigit) = true := by
  decide

theorem toReference_hex {d : String} (hd : isHexDigest d = true) :
    (toReference d).data.length = 8 ∧
      ∀ c ∈ (toReference d).data, c ∈ upperHexChars := by
  unfold isHexDigest at hd
  simp only [Bool.and_eq_true, beq_iff_eq, List.all_eq_true] at hd
  unfold toReference
  constructor
  · simp [hd.1]
  · intro c hc
    simp only [List.mem_map] at hc
    rcases hc with ⟨c0, hc0, rfl⟩
    have hc0mem : c0 ∈ d.data := List.mem_of_mem_take hc0
    have hmemc : c0 ∈ hexLowerChars := by simpa using hd.2 c0 hc0mem
    exact toUpper_mem_upperHex c0 hmemc

theorem toReference_pattern {d : String} (hd : isHexDigest d = true) :
    matchesRefPattern (toReference d) = true := by
  obtain ⟨hlen, hmem⟩ := toReference_hex hd
  unfold matchesRefPattern
  simp only [Bool.and_eq_true, beq_iff_eq, List.all_eq_true]
  exact ⟨hlen, fun c hc => upperHex_pattern c (hmem c hc)⟩

/-- A chosen reference comes from one of the supplied digests. -/
theorem freshReference_mem {bookings : List Booking} {digests : List String}
    {r : String} (h : freshReference bookings digests = some r) :
    ∃ d ∈ digests, r = toReference d := by
  induction digests with
  | nil => exact Option.noConfusion h
  | cons d rest ih =>
    unfold freshReference at h
    by_cases hused : bookings.any
        (fun b => b.booking_reference == toReference d) = true
    · simp only [hused, if_true] at h
      rcases ih h with ⟨d', hd', rfl⟩
      exact ⟨d', by simp [hd'], rfl⟩
    · simp only [hused, if_false] at h
      refine ⟨d, by simp, ?_⟩
      simpa using h.symm

/-- A chosen reference is not used by any existing booking. -/
theorem freshReference_fresh {bookings : List Booking} {digests : List String}
    {r : String} (h : freshReference bookings digests = some r) :
    ∀ b ∈ bookings, b.booking_reference ≠ r := by
  induction digests with
  | nil => exact Option.noConfusion h
  | cons d rest ih =>
    unfold freshReference at h
    by_cases hused : bookings.any
        (fun b => b.booking_reference == toReference d) = true
    · simp only [hused, if_true] at h
      exact ih h
    · simp only [hused, if_false] at h
      obtain rfl : toReference d = r := by simpa using h
      intro b hb
      simp only [List.any_eq_true, not_exists] at hused
      intro hbr
      exact hused b ⟨hb, by simp [hbr]⟩

/-- The two-step slot update as a single map. -/
theorem bookSlots_eq (slots : List TimeSlot) (sid : Nat) (q : Int) :
    bookSlots slots sid q = slots.map (fun s0 =>
      if s0.id == sid then
        { s0 with
          booked_count := s0.booked_count + q
          status := if s0.total_capacity - (s0.booked_count + q) = 0 then "full"
            else s0.status }
      else s0) := by
  unfold bookSlots
  rw [List.map_map]
  refine List.map_congr_left ?_
  intro ts _
  simp only [Function.comp]
  by_cases hid : ts.id = sid
  · simp only [hid, beq_self_eq_true, if_true, Bool.true_and]
    by_cases hz : ts.total_capacity - (ts.booked_count + q) = 0 <;>
      simp [TimeSlot.available_count, hz, hid]
  · have hb : (ts.id == sid) = false := by simpa using hid
    simp [hb]

/-- The success equation of `complete_slot_booking`. -/
theorem complete_ok_eq {db : DB} {L : Nat} {fn ln em : String}
    {ph no : Option String} {dg : List String} {now : Int} {lock : Hold}
    {slot : TimeSlot} {reference : String}
    (hfind : db.holds.find? (fun h =>
      h.id == L && h.is_active && decide (now < h.expires_at)) = some lock)
    (hslot : db.slots.find? (fun ts => ts.id == lock.slot_id) = some slot)
    (hcap : ¬ slot.available_count -
      sumExceptHold db.holds lock.slot_id L now < lock.quantity)
    (href : freshReference db.bookings dg = some reference)
    (hnodup : (db.holds.map (fun h => h.id)).Nodup) :
    complete_slot_booking db L fn ln em ph no dg now =
      (.ok db.next_id,
       { db with
         bookings := db.bookings ++
           [newBookingRow db slot lock fn ln em ph no reference now]
         slots := bookSlots db.slots lock.slot_id lock.quantity
         holds := db.holds.map (lockRelease L now)
         attempts := db.attempts ++ [successAttemptRow slot lock em now]
         next_id := db.next_id + 1 }) := by
  have hmem : lock ∈ db.holds := List.mem_of_find?_eq_some hfind
  have hp := List.find?_some hfind
  simp only [Bool.and_eq_true, beq_iff_eq, decide_eq_true_eq] at hp
  unfold complete_slot_booking
  simp only [hfind, hslot, hcap, href, if_false]
  have hrel := @release_slot_lock_of_active
    { db with
      bookings := db.bookings ++
        [newBookingRow db slot lock fn ln em ph no reference now]
      slots := bookSlots db.slots lock.slot_id lock.quantity
      next_id := db.next_id + 1 }
    L now lock hmem hp.1.1 hp.1.2 hnodup
  rw [hrel]
  rfl

theorem release_slot_lock_bookings (db : DB) (l : Nat) (n : Int) :
    (release_slot_lock db l n).2.bookings = db.bookings := by
  unfold release_slot_lock
  rcases hfind : db.holds.find? (fun h => h.id == l) with _ | h <;>
    simp only [hfind]
  · by_cases hact : h.is_active = true <;> simp [hact]

/-- Inversion of a successful `complete_slot_booking` on the bookings
table (needs no assumption on the state). -/
theorem complete_ok_bookings {db : DB} {L : Nat} {fn ln em : String}
    {ph no : Option String} {dg : List String} {now : Int} {bid : Nat}
    {db' : DB}
    (h : complete_slot_booking db L fn ln em ph no dg now = (.ok bid, db')) :
    ∃ lock slot reference,
      db.holds.find? (fun g =>
        g.id == L && g.is_active && decide (now < g.expires_at)) = some lock ∧
      db.slots.find? (fun ts => ts.id == lock.slot_id) = some slot ∧
      freshReference db.bookings dg = some reference ∧
      db'.bookings = db.bookings ++
        [newBookingRow db slot lock fn ln em ph no reference now] := by
  unfold complete_slot_booking at h
  rcases hfind : db.holds.find? (fun g =>
      g.id == L && g.is_active && decide (now < g.expires_at)) with _ | lock
  · simp [hfind] at h
  rcases hslot : db.slots.find? (fun ts => ts.id == lock.slot_id) with _ | slot
  · simp [hfind, hslot] at h
  by_cases hcap : slot.available_count -
      sumExceptHold db.holds lock.slot_id L now < lock.quantity
  · simp [hfind, hslot, hcap] at h
  rcases href : freshReference db.bookings dg with _ | reference
  · simp [hfind, hslot, hcap, href] at h
  simp only [hfind, hslot, hcap, href, if_false, Prod.mk.injEq] at h
  refine ⟨lock, slot, reference, hfind, hslot, rfl, ?_⟩
  rw [← h.2]
  show (release_slot_lock
    { db with
      bookings := db.bookings ++
        [newBookingRow db slot lock fn ln em ph no reference now]
      slots := bookSlots db.slots lock.slot_id lock.quantity
      next_id := db.next_id + 1 } L now).2.bookings = _
  rw [release_slot_lock_bookings]

/-- C3: a successful `complete_slot_booking` of a valid hold commits
exactly: a booking row in status 'confirmed' carrying the slots event id,
the holds slot id and (possibly null) user id and the attendee fields,
whose reference matches `^[A-Z0-9]{8}$` (given md5 digests) and is new —
preserving global uniqueness of references; the slots `booked_count` grows
by the holds quantity and its status becomes 'full' exactly when the new
`available_count` is 0; the hold is deactivated; and a success row is
appended to the attempt log. -/
theorem claim_C3_confirm_success_spec {db : DB} {L : Nat} {fn ln em : String}
    {ph no : Option String} {dg : List String} {now : Int} {lock : Hold}
    {slot : TimeSlot} {reference : String}
    (hfind : db.holds.find? (fun h =>
      h.id == L && h.is_active && decide (now < h.expires_at)) = some lock)
    (hslot : db.slots.find? (fun ts => ts.id == lock.slot_id) = some slot)
    (hcap : ¬ slot.available_count -
      sumExceptHold db.holds lock.slot_id L now < lock.quantity)
    (href : freshReference db.bookings dg = some reference)
    (hnodup : (db.holds.map (fun h => h.id)).Nodup)
    (hhex : ∀ x ∈ dg, isHexDigest x = true)
    (hrefs : (db.bookings.map (fun b => b.booking_reference)).Nodup) :
    complete_slot_booking db L fn ln em ph no dg now =
      (.ok db.next_id,
       { db with
         bookings := db.bookings ++
           [newBookingRow db slot lock fn ln em ph no reference now]
         slots := bookSlots db.slots lock.slot_id lock.quantity
         holds := db.holds.map (lockRelease L now)
         attempts := db.attempts ++ [successAttemptRow slot lock em now]
         next_id := db.next_id + 1 }) ∧
    (newBookingRow db slot lock fn ln em ph no reference now).status =
      "confirmed" ∧
    (newBookingRow db slot lock fn ln em ph no reference now).event_id =
      slot.event_id ∧
    (newBookingRow db slot lock fn ln em ph no reference now).slot_id =
      lock.slot_id ∧
    (newBookingRow db slot lock fn ln em ph no reference now).user_id =
      lock.user_id ∧
    (newBookingRow db slot lock fn ln em ph no reference now).first_name = fn ∧
    (newBookingRow db slot lock fn ln em ph no reference now).last_name = ln ∧
    (newBookingRow db slot lock fn ln em ph no reference now).email = em ∧
    (newBookingRow db slot lock fn ln em ph no reference now).booking_reference
      = reference ∧
    matchesRefPattern reference = true ∧
    (∀ b ∈ db.bookings, b.booking_reference ≠ reference) ∧
    ((db.bookings ++
        [newBookingRow db slot lock fn ln em ph no reference now]).map
      (fun b => b.booking_reference)).Nodup ∧
    bookSlots db.slots lock.slot_id lock.quantity = db.slots.map (fun s0 =>
      if s0.id == lock.slot_id then
        { s0 with
          booked_count := s0.booked_count + lock.quantity
          status := if s0.total_capacity -
              (s0.booked_count + lock.quantity) = 0 then "full"
            else s0.status }
      else s0) ∧
    (∀ g ∈ db.holds.map (lockRelease L now), g.id = L →
      g.is_active = false) ∧
    (successAttemptRow slot lock em now).status = "success" := by
  have hfreshp : ∀ b ∈ db.bookings, b.booking_reference ≠ reference :=
    freshReference_fresh href
  have hpat : matchesRefPattern reference = true := by
    rcases freshReference_mem href with ⟨dgst, hdg, rfl⟩
    exact toReference_pattern (hhex dgst hdg)
  refine ⟨complete_ok_eq hfind hslot hcap href hnodup, rfl, rfl, rfl, rfl,
    rfl, rfl, rfl, rfl, hpat, hfreshp, ?_, bookSlots_eq _ _ _, ?_, rfl⟩
  · rw [List.map_append, List.nodup_append]
    refine ⟨hrefs, by simp, ?_⟩
    intro a ha hb
    simp only [List.map_cons, List.map_nil, List.mem_singleton] at hb
    rcases List.mem_map.mp ha with ⟨b, hbm, rfl⟩
    exact hfreshp b hbm (by simpa [newBookingRow] using hb)
  · intro g hg hgid
    rcases List.mem_map.mp hg with ⟨g0, hg0, rfl⟩
    have hg0id : g0.id = L := by
      rw [(deactivating_lockRelease L now g0).1] at hgid
      exact hgid
    unfold lockRelease
    by_cases hact : g0.is_active = true <;> simp [hg0id, hact]

/-- The slot of the confirm-success witness. -/
def wslotC3 : TimeSlot :=
  { id := 3, event_id := 1, start_time := 100, end_time := 160,
    total_capacity := 5, booked_count := 0, status := "available",
    price := 0 }

/-- The hold of the confirm-success witness. -/
def wholdC3 : Hold :=
  { id := 1, slot_id := 3, user_id := none, session_id := "A",
    quantity := 2, expires_at := 100, is_active := true,
    released_at := none }

/-- The state of the confirm-success witness. -/
def wdbC3 : DB :=
  { events := []
    slots := [wslotC3]
    holds := [wholdC3]
    bookings := []
    attempts := []
    next_id := 2 }

theorem claim_C3_confirm_success_spec_witness :
    complete_slot_booking wdbC3 1 "Ada" "Lovelace" "ada@example.org"
        none none ["0a1b2c3d4e5f60718293a4b5c6d7e8f9"] 0 =
      (.ok wdbC3.next_id,
       { wdbC3 with
         bookings := wdbC3.bookings ++
           [newBookingRow wdbC3 wslotC3 wholdC3 "Ada" "Lovelace"
             "ada@example.org" none none "0A1B2C3D" 0]
         slots := bookSlots wdbC3.slots wholdC3.slot_id wholdC3.quantity
         holds := wdbC3.holds.map (lockRelease 1 0)
         attempts := wdbC3.attempts ++
           [successAttemptRow wslotC3 wholdC3 "ada@example.org" 0]
         next_id := wdbC3.next_id + 1 }) ∧
    matchesRefPattern "0A1B2C3D" = true :=
  have h := @claim_C3_confirm_success_spec
    wdbC3 1 "Ada" "Lovelace" "ada@example.org" none none
    ["0a1b2c3d4e5f60718293a4b5c6d7e8f9"] 0 wholdC3 wslotC3 "0A1B2C3D"
    (by decide) (by decide) (by decide) (by decide) (by decide) (by decide)
    (by decide)
  ⟨h.1, h.2.2.2.2.2.2.2.2.2.1⟩

/-- C10: every booking reference `complete_slot_booking` generates is the
uppercased 8-character prefix of an md5 hex digest, so it consists solely
of the sixteen characters `[0-9A-F]` — a realized space of `16^8` values,
a strict subset of the `36^8` values of the `[A-Z0-9]{8}` domain the spec
assumes (for example `G` is in the pattern domain but can never occur). -/
theorem claim_C10_reference_hex_domain :
    (∀ (db : DB) (L : Nat) (fn ln em : String) (ph no : Option String)
      (dg : List String) (now : Int) (bid : Nat) (db' : DB),
      (∀ x ∈ dg, isHexDigest x = true) →
      complete_slot_booking db L fn ln em ph no dg now = (.ok bid, db') →
      ∀ b ∈ db'.bookings, b ∉ db.bookings →
        b.booking_reference.data.length = 8 ∧
        ∀ c ∈ b.booking_reference.data, c ∈ upperHexChars) ∧
    (∀ c ∈ upperHexChars, (c.isUpper || c.isDigit) = true) ∧
    upperHexChars.length = 16 ∧
    ('G'.isUpper || 'G'.isDigit) = true ∧ 'G' ∉ upperHexChars ∧
    (16 : Nat) ^ 8 < 36 ^ 8 := by
  refine ⟨?_, upperHex_pattern, by decide, by decide, by decide, by decide⟩
  intro db L fn ln em ph no dg now bid db' hhex hok b hb hbnot
  rcases complete_ok_bookings hok with ⟨lock, slot, reference, _, _, href, hbk⟩
  rw [hbk] at hb
  rcases List.mem_append.mp hb with hb | hb
  · exact absurd hb hbnot
  have hbe : b = newBookingRow db slot lock fn ln em ph no reference now := by
    simpa using hb
  rcases freshReference_mem href with ⟨dgst, hdg, rfl⟩
  rw [hbe]
  exact toReference_hex (hhex dgst hdg)

/-- The state of the hex-domain witness. -/
def wdbC10 : DB :=
  { events := []
    slots := [{ id := 4, event_id := 1, start_time := 100, end_time := 160,
                total_capacity := 5, booked_count := 0, status := "available",
                price := 0 }]
    holds := [{ id := 1, slot_id := 4, user_id := none, session_id := "B",
                quantity := 1, expires_at := 100, is_active := true,
                released_at := none }]
    bookings := []
    attempts := []
    next_id := 2 }

theorem claim_C10_reference_hex_domain_witness :
    ({ id := 2, event_id := 1, slot_id := 4, user_id := none,
       first_name := "A", last_name := "B", email := "a@b.c", phone := none,
       notes := none, start_time := 100, timezone := "UTC",
       status := "confirmed", booking_reference := "ABCDEF01",
       confirmed_at := 0 } : Booking).booking_reference.data.length = 8 := by
  have hok : complete_slot_booking wdbC10 1 "A" "B" "a@b.c" none none
      ["abcdef0123456789abcdef0123456789"] 0 =
      (.ok 2, (complete_slot_booking wdbC10 1 "A" "B" "a@b.c" none none
        ["abcdef0123456789abcdef0123456789"] 0).2) := rfl
  exact (claim_C10_reference_hex_domain.1 wdbC10 1 "A" "B" "a@b.c"
    none none ["abcdef0123456789abcdef0123456789"] 0 2 _ (by decide) hok
    { id := 2, event_id := 1, slot_id := 4, user_id := none,
      first_name := "A", last_name := "B", email := "a@b.c", phone := none,
      notes := none, start_time := 100, timezone := "UTC",
      status := "confirmed", booking_reference := "ABCDEF01",
      confirmed_at := 0 }
    (by decide) (by decide)).1

/-- The returned rows of `get_available_slots`, with the opportunistic
sweep folded away: the expired-hold deactivation does not change which
holds are counted at the same instant. -/
theorem get_available_slots_eq (db : DB) (e : Nat) (sid : String)
    (now : Int) :
    (get_available_slots db e (some sid) now).1 =
      sortByStart ((db.slots.filter (fun ts =>
        ts.event_id == e && ts.status == "available" &&
          decide (now < ts.start_time) &&
          decide (0 < ts.available_count))).map
        (fun ts =>
          { slot_id := ts.id
            start_time := ts.start_time
            end_time := ts.end_time
            total_capacity := ts.total_capacity
            available_count := ts.available_count -
              sumOtherSessions db.holds ts.id (some sid) now
            price := ts.price })) := by
  show sortByStart ((db.slots.filter (fun ts =>
      ts.event_id == e && ts.status == "available" &&
        decide (now < ts.start_time) &&
        decide (0 < ts.available_count))).map
    (fun ts =>
      { slot_id := ts.id
        start_time := ts.start_time
        end_time := ts.end_time
        total_capacity := ts.total_capacity
        available_count := ts.available_count -
          sumOtherSessions (db.holds.map (expireRelease now)) ts.id
            (some sid) now
        price := ts.price })) = _
  congr 1
  refine List.map_congr_left ?_
  intro ts _
  rw [sumOther_sweep]

/-- C4: `get_available_slots(event_id, session_id)` emits exactly the
events slots with `status = 'available'`, a future start and a positive
`available_count`, ordered by `start_time` ascending, and reports for each
an effective availability of `available_count` minus the quantities of the
active, non-expired holds of every session other than the callers: adding
one of the callers own holds never changes the callers view, while any
other sessions live hold is deducted in full. -/
theorem claim_C4_list_availability_spec (db : DB) (e : Nat) (sid : String)
    (now : Int) :
    ((get_available_slots db e (some sid) now).1).Perm
      ((db.slots.filter (fun ts =>
        ts.event_id == e && ts.status == "available" &&
          decide (now < ts.start_time) &&
          decide (0 < ts.available_count))).map
        (fun ts =>
          { slot_id := ts.id
            start_time := ts.start_time
            end_time := ts.end_time
            total_capacity := ts.total_capacity
            available_count := ts.available_count -
              sumOtherSessions db.holds ts.id (some sid) now
            price := ts.price })) ∧
    List.Pairwise (fun a b => a.start_time ≤ b.start_time)
      (get_available_slots db e (some sid) now).1 ∧
    (∀ r ∈ (get_available_slots db e (some sid) now).1, ∃ ts ∈ db.slots,
      ts.id = r.slot_id ∧ ts.event_id = e ∧ ts.status = "available" ∧
      now < ts.start_time ∧ 0 < ts.available_count ∧
      r.available_count = ts.available_count -
        ((db.holds.filter (fun h =>
          h.countsAt ts.id now && h.session_id != sid)).map
          (fun h => h.quantity)).sum) ∧
    (∀ h : Hold, h.session_id = sid →
      (get_available_slots { db with holds := h :: db.holds } e
        (some sid) now).1 = (get_available_slots db e (some sid) now).1) ∧
    (∀ h : Hold, h.session_id ≠ sid → h.is_active = true →
      now < h.expires_at →
      sumOtherSessions (h :: db.holds) h.slot_id (some sid) now =
        h.quantity + sumOtherSessions db.holds h.slot_id (some sid) now) := by
  refine ⟨?_, ?_, ?_, ?_, ?_⟩
  · rw [get_available_slots_eq]
    exact sortByStart_perm _
  · rw [get_available_slots_eq]
    exact sortByStart_sorted _
  · intro r hr
    rw [get_available_slots_eq] at hr
    have hr2 := (List.mem_insertionSort _ (l := _)).mp hr
    rcases List.mem_map.mp hr2 with ⟨ts, hts, rfl⟩
    have htsm := List.mem_filter.mp hts
    have hcond := htsm.2
    simp only [Bool.and_eq_true, beq_iff_eq, decide_eq_true_eq] at hcond
    exact ⟨ts, htsm.1, rfl, hcond.1.1.1, hcond.1.1.2, hcond.1.2, hcond.2,
      rfl⟩
  · intro h hsid
    rw [get_available_slots_eq, get_available_slots_eq]
    congr 1
    refine List.map_congr_left ?_
    intro ts _
    show ({ slot_id := ts.id
            start_time := ts.start_time
            end_time := ts.end_time
            total_capacity := ts.total_capacity
            available_count := ts.available_count -
              sumOtherSessions (h :: db.holds) ts.id (some sid) now
            price := ts.price } : AvailRow) = _
    rw [sumOther_cons_own h db.holds ts.id sid now hsid]
  · intro h hsid hact hexp
    exact sumOther_cons_other h db.holds sid now hsid hact hexp

/-- A two-hold state for the availability claim: session A holds 2 of 3
seats on the slot. -/
def wdbC4 : DB :=
  { events := []
    slots := [{ id := 3, event_id := 1, start_time := 100, end_time := 160,
                total_capacity := 3, booked_count := 0, status := "available",
                price := 10 }]
    holds := [{ id := 1, slot_id := 3, user_id := none, session_id := "A",
                quantity := 2, expires_at := 100, is_active := true,
                released_at := none }]
    bookings := []
    attempts := []
    next_id := 2 }

theorem claim_C4_list_availability_spec_witness :
    (get_available_slots
      { wdbC4 with holds :=
          { id := 9, slot_id := 3, user_id := none, session_id := "A",
            quantity := 1, expires_at := 100, is_active := true,
            released_at := none } :: wdbC4.holds }
      1 (some "A") 0).1 = (get_available_slots wdbC4 1 (some "A") 0).1 :=
  (claim_C4_list_availability_spec wdbC4 1 "A" 0).2.2.2.1
    { id := 9, slot_id := 3, user_id := none, session_id := "A",
      quantity := 1, expires_at := 100, is_active := true,
      released_at := none }
    rfl

end Schedlyx
